import Mathlib

/-!
Verification of the hhr report parser (`Bio/Align/hhr.py`).

The parser is shallowly embedded: text lines are lists of characters, the
mutable iterator state is an explicit record threaded through the line
dispatch, the generator `parse` becomes a function returning the list of
yielded alignment records together with an optional terminal error, and every
Python exception (`ValueError`, `AssertionError`, `AttributeError`,
`KeyError`, `StopIteration`) is an `Err` value.
-/

deriving instance DecidableEq for Except

namespace Hhr

/-! ## Python string primitives, over character lists -/

/-- Whitespace characters recognised by Python's `str.strip` / `str.split`. -/
def pySpace (c : Char) : Bool :=
  c = ' ' || c = '\t' || c = '\n' || c = '\r' || c = '\x0b' || c = '\x0c'

/-- `str.lstrip()`. -/
def pyLstrip (l : List Char) : List Char := l.dropWhile pySpace

/-- `str.rstrip()`. -/
def pyRstrip (l : List Char) : List Char :=
  (l.reverse.dropWhile pySpace).reverse

/-- `str.strip()`. -/
def pyStrip (l : List Char) : List Char := pyRstrip (pyLstrip l)

/-- `s.startswith(p)`. -/
def listStartsWith : List Char → List Char → Bool
  | _, [] => true
  | [], _ :: _ => false
  | a :: s, b :: p => (a = b) && listStartsWith s p

/-- `s.endswith(p)`. -/
def listEndsWith (s p : List Char) : Bool :=
  listStartsWith s.reverse p.reverse

/-- Worker for `pySplit`; `cur` is the current token, reversed. -/
def pySplitGo : List Char → List Char → List (List Char)
  | [], cur => if cur = [] then [] else [cur.reverse]
  | c :: t, cur =>
    if pySpace c then
      if cur = [] then pySplitGo t [] else cur.reverse :: pySplitGo t []
    else pySplitGo t (c :: cur)

/-- `str.split()` with no arguments: split on whitespace runs, no empties. -/
def pySplit (l : List Char) : List (List Char) := pySplitGo l []

/-- `str.split(None, 1)`: at most one split, leading whitespace of the
remainder consumed, trailing whitespace of the remainder kept. -/
def pySplitMax1 (l : List Char) : List (List Char) :=
  let l1 := l.dropWhile pySpace
  if l1 = [] then []
  else
    let tok := l1.takeWhile (fun c => !pySpace c)
    let rest := (l1.dropWhile (fun c => !pySpace c)).dropWhile pySpace
    if rest = [] then [tok] else [tok, rest]

/-- `str.rsplit(None, 1)`: at most one split, from the right. -/
def pyRsplitMax1 (l : List Char) : List (List Char) :=
  let r := l.reverse.dropWhile pySpace
  if r = [] then []
  else
    let tok := (r.takeWhile (fun c => !pySpace c)).reverse
    let rest := ((r.dropWhile (fun c => !pySpace c)).dropWhile pySpace).reverse
    if rest = [] then [tok] else [rest, tok]

/-- Worker for `splitOnEq`; `cur` is the current piece, reversed. -/
def splitOnEqGo : List Char → List Char → List (List Char)
  | [], cur => [cur.reverse]
  | c :: t, cur =>
    if c = '=' then cur.reverse :: splitOnEqGo t [] else splitOnEqGo t (c :: cur)

/-- `str.split("=")`: split on every equals sign (empty pieces kept). -/
def splitOnEq (l : List Char) : List (List Char) := splitOnEqGo l []

/-- Split off the text before and after the first occurrence of `sep`. -/
def breakOnSeq (sep : List Char) : List Char → Option (List Char × List Char)
  | [] => none
  | c :: t =>
    if listStartsWith (c :: t) sep then some ([], (c :: t).drop sep.length)
    else (breakOnSeq sep t).map (fun p => (c :: p.1, p.2))

/-- `value1, value2 = value.split(" out of ")`: succeeds exactly when the
separator occurs exactly once. -/
def splitOutOf (l : List Char) : Option (List Char × List Char) :=
  match breakOnSeq " out of ".data l with
  | none => none
  | some (a, b) =>
    match breakOnSeq " out of ".data b with
    | none => some (a, b)
    | some _ => none

/-- Value of a digit string (assumed all digits). -/
def natOfDigits (l : List Char) : Nat :=
  l.foldl (fun a c => 10 * a + (c.toNat - 48)) 0

/-- A nonempty all-digit string, or failure. -/
def digitsVal (l : List Char) : Option Nat :=
  if l ≠ [] ∧ l.all Char.isDigit then some (natOfDigits l) else none

/-- Python `int(str)`: optional surrounding whitespace, optional sign,
nonempty digit run. -/
def pyInt? (l : List Char) : Option Int :=
  match pyStrip l with
  | '+' :: t => (digitsVal t).map Int.ofNat
  | '-' :: t => (digitsVal t).map (fun n => -(n : Int))
  | t => (digitsVal t).map Int.ofNat

/-- An exact decimal value `m * 10 ^ e`, the result of parsing a float
literal.  Values are kept canonical (no trailing zeros in `m`, and `0`
is `⟨0, 0⟩`), so equal decimal values have equal representations. -/
structure Dec where
  m : Int
  e : Int
deriving DecidableEq, Repr

/-- Strip factors of ten from the mantissa into the exponent (fuelled). -/
def stripTens : Nat → Int → Int → Dec
  | 0, m, e => ⟨m, e⟩
  | fuel + 1, m, e =>
    if m % 10 = 0 ∧ m ≠ 0 then stripTens fuel (m / 10) (e + 1) else ⟨m, e⟩

/-- Canonical decimal value `m * 10 ^ e`. -/
def decCanon (m e : Int) : Dec :=
  if m = 0 then ⟨0, 0⟩ else stripTens m.natAbs m e

/-- Signed exponent digits of a float literal. -/
def expVal : List Char → Option Int
  | '+' :: t => (digitsVal t).map Int.ofNat
  | '-' :: t => (digitsVal t).map (fun n => -(n : Int))
  | t => (digitsVal t).map Int.ofNat

/-- The trailing exponent part of a float literal: empty, or `e`/`E` followed
by signed digits; yields the power of ten. -/
def expOffset : List Char → Option Int
  | [] => some 0
  | c :: t => if c = 'e' ∨ c = 'E' then expVal t else none

/-- The unsigned body of a float literal: `digits [. digits] [exp]` or
`. digits [exp]`; yields mantissa digits value and exponent. -/
def floatBody (t : List Char) : Option (Nat × Int) :=
  let ip := t.takeWhile Char.isDigit
  let r1 := t.dropWhile Char.isDigit
  match r1 with
  | '.' :: r2 =>
    let fp := r2.takeWhile Char.isDigit
    let r3 := r2.dropWhile Char.isDigit
    if ip = [] ∧ fp = [] then none
    else (expOffset r3).map (fun k => (natOfDigits (ip ++ fp), k - fp.length))
  | _ =>
    if ip = [] then none
    else (expOffset r1).map (fun k => (natOfDigits ip, k))

/-- Python `float(str)` on decimal/scientific literals (with optional sign and
surrounding whitespace), yielding the exact decimal value. -/
def pyFloat? (l : List Char) : Option Dec :=
  match pyStrip l with
  | '+' :: t => (floatBody t).map (fun p => decCanon p.1 p.2)
  | '-' :: t => (floatBody t).map (fun p => decCanon (-(p.1 : Int)) p.2)
  | t => (floatBody t).map (fun p => decCanon p.1 p.2)

/-- `str.rstrip("%")`: drop every trailing percent sign. -/
def rstripPercent (l : List Char) : List Char :=
  (l.reverse.dropWhile (fun c => c = '%')).reverse

/-- `str.replace(c, "")` for a single character. -/
def removeChar (c : Char) (l : List Char) : List Char := l.filter (fun a => a ≠ c)

/-- `" " * n` with Python's semantics on nonpositive `n`. -/
def spacesI (n : Int) : List Char := List.replicate n.toNat ' '

/-- Python dict assignment `m[k] = v` on an insertion-ordered association
list: overwrite in place, else append. -/
def dictSet (m : List (List Char × Dec)) (k : List Char) (v : Dec) :
    List (List Char × Dec) :=
  match m with
  | [] => [(k, v)]
  | (k', v') :: t => if k' = k then (k, v) :: t else (k', v') :: dictSet t k v

/-! ## Data model -/

/-- Fatal parser outcomes; every Python exception raised by the module
(`ValueError`, `AssertionError`, `AttributeError`, `KeyError`,
`StopIteration` escaping a generator frame) becomes one of these. -/
inductive Err
  | unknownKey (k : List Char)
  | truncated
  | badTableHeader
  | rowNumberMismatch
  | unpackError
  | intParseError
  | floatParseError
  | parenError
  | queryNameMismatch
  | tKeyMismatch
  | noNumberMismatch
  | matchColumnsMismatch
  | trackLengthMismatch
  | attributeError
  | keyError
  | stopIteration
  | dataAfterDone
  | unparsableLine (s : List Char)
  | countMismatch (expected found : Nat)
deriving DecidableEq, Repr

/-- The produced per-hit alignment record.  The external containers
(`Seq`, `SeqRecord`, `Alignment` of `Bio.Align`) are out of scope per the
spec and are flattened to their observable content: identifiers, start
offsets, declared lengths, gap-free residue runs, per-residue annotation
tracks, the coordinate breakpoints, the scalar annotation mapping and the
column score track. -/
structure AlignRecord where
  hmm_name : List Char
  hmm_description : List Char
  target_id : List Char
  query_id : List Char
  t_start : Int
  q_start : Int
  t_len : Int
  q_len : Int
  t_res : List Char
  q_res : List Char
  coordinates : List (Int × Int)
  q_consensus : List Char
  t_consensus : List Char
  t_ss_dssp : List Char
  q_ss_pred : List Char
  t_ss_pred : List Char
  t_confidence : List Char
  annotations : List (List Char × Dec)
  column_score : List Char
deriving DecidableEq, Repr

/-- The iterator's mutable attributes.  Attributes that may not have been
assigned yet are `Option`-valued (`none` covering both a missing attribute
and, for the start offsets, an attribute explicitly reset to Python `None`);
reading them while unset is a fatal error. -/
structure PState where
  query_name : Option (List Char) := none
  match_columns : Option Int := none
  no_of_seqs : Option (Int × Int) := none
  neff : Option Dec := none
  template_neff : Option Dec := none
  searched_hmms : Option Int := none
  rundate : Option (List Char) := none
  command_line : Option (List Char) := none
  number : Nat := 0
  counter : Nat := 0
  hmm_name : Option (List Char) := none
  hmm_description : Option (List Char) := none
  query_ss_pred : Option (List Char) := none
  query_consensus : Option (List Char) := none
  query_sequence : Option (List Char) := none
  query_start : Option Int := none
  target_ss_pred : Option (List Char) := none
  target_consensus : Option (List Char) := none
  target_ss_dssp : Option (List Char) := none
  target_sequence : Option (List Char) := none
  target_start : Option Int := none
  column_score : Option (List Char) := none
  confidence : Option (List Char) := none
  annotations : Option (List (List Char × Dec)) := none
  query_length : Option Int := none
  target_length : Option Int := none
  target_name : Option (List Char) := none
deriving DecidableEq, Repr

/-- The state right after `__init__`'s `super().__init__` call. -/
def initState : PState := {}

/-! ## Coordinate inference (external collaborator) -/

/-- Class of an alignment column: which of the two sides carries a residue. -/
def coordClass (a b : Char) : Nat :=
  (if a = '-' then 0 else 2) + (if b = '-' then 0 else 1)

/-- Worker for `inferCoordinates`: walk the two gapped strings in lockstep,
advancing each side's offset on its non-gap characters and recording a
breakpoint whenever the column class changes. -/
def inferGo : List Char → List Char → Int → Int → Option Nat →
    List (Int × Int) → List (Int × Int)
  | [], _, i, j, _, acc => ((i, j) :: acc).reverse
  | _ :: _, [], i, j, _, acc => ((i, j) :: acc).reverse
  | a :: t, b :: q, i, j, cls, acc =>
    let c := coordClass a b
    let acc' := if cls = some c ∨ cls = none then acc else (i, j) :: acc
    inferGo t q (i + if a = '-' then 0 else 1) (j + if b = '-' then 0 else 1)
      (some c) acc'

/-- Modelled from the spec: `Alignment.infer_coordinates` belongs to the
generic alignment container (`Bio.Align.Alignment`), which is outside this
module.  Per the spec it scans the two equal-length gapped strings in
lockstep and produces the ordered breakpoints of maximal runs of pure
insertion, pure deletion, or one-to-one match, offsets advancing only on
non-gap characters. -/
def inferCoordinates (t q : List Char) : List (Int × Int) :=
  inferGo t q 0 0 none [(0, 0)]

/-! ## Record assembly (`AlignmentIterator._create_alignment`) -/

/-- `" " * start + track` then right-pad with blanks to `total`. -/
def padTrack (track : List Char) (start total : Int) : List Char :=
  let t := spacesI start ++ track
  t ++ spacesI (total - (t.length : Int))

/-- `AlignmentIterator._create_alignment`, with the Python statement order
preserved: each attribute read fails if the attribute is unset, the two
`assert`s become dedicated errors. -/
def createAlignment (st : PState) : Except Err AlignRecord :=
  match st.query_name with
  | none => .error .attributeError
  | some qn =>
  match st.query_length with
  | none => .error .attributeError
  | some ql =>
  match st.match_columns with
  | none => .error .keyError
  | some mc =>
  if ql = mc then
  (match st.target_name with
  | none => .error .attributeError
  | some tn =>
  match st.hmm_name, st.hmm_description with
  | some hn, some hd =>
    (match st.query_sequence, st.target_sequence with
     | some qs, some ts =>
       if ts.length = qs.length then
       (match st.target_start, st.query_start with
       | some tst, some qst =>
         (match st.target_length with
          | none => .error .attributeError
          | some tl =>
          match st.query_consensus, st.target_consensus with
          | some qc, some tc =>
            (match st.target_ss_dssp, st.query_ss_pred, st.target_ss_pred with
             | some tdssp, some qsp, some tsp =>
               (match st.confidence with
                | none => .error .attributeError
                | some conf =>
                match st.annotations, st.column_score with
                | some ann, some cs =>
                  .ok { hmm_name := hn
                        hmm_description := hd
                        target_id := tn
                        query_id := qn
                        t_start := tst
                        q_start := qst
                        t_len := tl
                        q_len := ql
                        t_res := removeChar '-' ts
                        q_res := removeChar '-' qs
                        coordinates :=
                          (inferCoordinates ts qs).map
                            (fun p => (p.1 + tst, p.2 + qst))
                        q_consensus := padTrack (removeChar '-' qc) qst ql
                        t_consensus := padTrack (removeChar '-' tc) tst tl
                        t_ss_dssp := padTrack (removeChar '-' tdssp) tst tl
                        q_ss_pred := padTrack (removeChar '-' qsp) qst ql
                        t_ss_pred := padTrack (removeChar '-' tsp) tst tl
                        t_confidence := padTrack (removeChar ' ' conf) tst tl
                        annotations := ann
                        column_score := cs }
                | _, _ => .error .attributeError)
             | _, _, _ => .error .attributeError)
          | _, _ => .error .attributeError)
       | _, _ => .error .attributeError)
       else .error .trackLengthMismatch
     | _, _ => .error .attributeError)
  | _, _ => .error .attributeError)
  else .error .matchColumnsMismatch

/-! ## The block assembler (`AlignmentIterator.parse`) -/

/-- The `key=value` token loop below a `>` header line: split each token on
`=`, drop `Aligned_cols`, strip trailing percent signs off the `Identities`
value, parse the value as a float, and assign into the dict. -/
def parseAnnots (ann : List (List Char × Dec)) :
    List (List Char) → Except Err (List (List Char × Dec))
  | [] => .ok ann
  | w :: ws =>
    match splitOnEq w with
    | [k, v] =>
      if k = "Aligned_cols".data then parseAnnots ann ws
      else
        let v' := if k = "Identities".data then rstripPercent v else v
        match pyFloat? v' with
        | some q => parseAnnots (dictSet ann k q) ws
        | none => .error .floatParseError
    | _ => .error .unpackError

/-- The `>` branch: split the header into target HMM name and description,
reset the per-hit tracks and start offsets, and parse the following line's
`key=value` tokens into the scalar annotation mapping.  `l` is the stripped
`>` line, `hdr` the next raw line from the stream. -/
def startHit (st : PState) (l hdr : List Char) : Except Err PState :=
  match pySplitMax1 (l.drop 1) with
  | [n, d] =>
    match parseAnnots [] (pySplit hdr) with
    | .error e => .error e
    | .ok ann =>
      .ok { st with hmm_name := some n
                    hmm_description := some d
                    query_ss_pred := some []
                    query_consensus := some []
                    query_sequence := some []
                    query_start := none
                    target_ss_pred := some []
                    target_consensus := some []
                    target_ss_dssp := some []
                    target_sequence := some []
                    target_start := none
                    column_score := some []
                    confidence := some []
                    annotations := some ann }
  | _ => .error .unpackError

/-- The tail of the `No <n>` branch after the possible yield: increment the
counter, split the line into exactly two tokens and assert the second one
numbers the new hit. -/
def noRest (st : PState) (l : List Char) : Except Err PState :=
  match pySplit l with
  | [_, v] =>
    match pyInt? v with
    | some n =>
      if n = ((st.counter + 1 : Nat) : Int) then
        .ok { st with counter := st.counter + 1 }
      else .error .noNumberMismatch
    | none => .error .intParseError
  | _ => .error .unpackError

/-- The leading-space branch: append the stripped line to the column score
track. -/
def colScoreBranch (st : PState) (l : List Char) : Except Err PState :=
  match st.column_score with
  | none => .error .attributeError
  | some cs => .ok { st with column_score := some (cs ++ pyStrip l) }

/-- The `No <n>` branch: yield the previous hit's record unless this is the
first hit, then advance and check the hit counter. -/
def noBranch (st : PState) (l : List Char) :
    List AlignRecord × Except Err PState :=
  if st.counter > 0 then
    match createAlignment st with
    | .error e => ([], .error e)
    | .ok a =>
      match noRest st l with
      | .error e => ([a], .error e)
      | .ok st' => ([a], .ok st')
  else
    match noRest st l with
    | .error e => ([], .error e)
    | .ok st' => ([], .ok st')

/-- The `Confidence` branch: append everything after the tag. -/
def confidenceBranch (st : PState) (l : List Char) : Except Err PState :=
  match pySplitMax1 l with
  | [_, v] =>
    match st.confidence with
    | none => .error .attributeError
    | some c => .ok { st with confidence := some (c ++ v) }
  | _ => .error .unpackError

/-- The `Q ss_pred` branch: append the line's last token. -/
def qSsPredBranch (st : PState) (l : List Char) : Except Err PState :=
  match pyRsplitMax1 l with
  | [_, v] =>
    match st.query_ss_pred with
    | none => .error .attributeError
    | some c => .ok { st with query_ss_pred := some (c ++ v) }
  | _ => .error .unpackError

/-- The `Q Consensus` branch: six fields, numeric and parenthesis checks,
and append the consensus segment. -/
def qConsensusBranch (st : PState) (l : List Char) : Except Err PState :=
  match pySplit l with
  | [_, _, s, cons, e, tot] =>
    match pyInt? s, pyInt? e with
    | some _, some _ =>
      if listStartsWith tot "(".data && listEndsWith tot ")".data then
        match pyInt? ((tot.drop 1).dropLast) with
        | some _ =>
          match st.query_consensus with
          | none => .error .attributeError
          | some c => .ok { st with query_consensus := some (c ++ cons) }
        | none => .error .intParseError
      else .error .parenError
    | _, _ => .error .intParseError
  | _ => .error .unpackError

/-- The `Q <name>` branch: check the name against the header's query
identifier, record the declared total, set the start offset only when still
unset, and append the sequence segment. -/
def qSeqBranch (st : PState) (l : List Char) : Except Err PState :=
  match pySplit l with
  | [_, k2, s, seqtok, e, tot] =>
    match st.query_name with
    | none => .error .attributeError
    | some qn =>
      if listStartsWith qn k2 then
        match pyInt? s, pyInt? e with
        | some sv, some _ =>
          if listStartsWith tot "(".data && listEndsWith tot ")".data then
            match pyInt? ((tot.drop 1).dropLast) with
            | some ql =>
              match st.query_sequence with
              | none => .error .attributeError
              | some qs =>
                .ok { st with
                      query_length := some ql
                      query_start :=
                        if st.query_start = none then some (sv - 1)
                        else st.query_start
                      query_sequence := some (qs ++ seqtok) }
            | none => .error .intParseError
          else .error .parenError
        | _, _ => .error .intParseError
      else .error .queryNameMismatch
  | _ => .error .unpackError

/-- The `T ss_pred` branch: append the line's last token. -/
def tSsPredBranch (st : PState) (l : List Char) : Except Err PState :=
  match pyRsplitMax1 l with
  | [_, v] =>
    match st.target_ss_pred with
    | none => .error .attributeError
    | some c => .ok { st with target_ss_pred := some (c ++ v) }
  | _ => .error .unpackError

/-- The `T ss_dssp` branch: append the line's last token. -/
def tSsDsspBranch (st : PState) (l : List Char) : Except Err PState :=
  match pyRsplitMax1 l with
  | [_, v] =>
    match st.target_ss_dssp with
    | none => .error .attributeError
    | some c => .ok { st with target_ss_dssp := some (c ++ v) }
  | _ => .error .unpackError

/-- The `T Consensus` branch, same shape as `Q Consensus`. -/
def tConsensusBranch (st : PState) (l : List Char) : Except Err PState :=
  match pySplit l with
  | [_, _, s, cons, e, tot] =>
    match pyInt? s, pyInt? e with
    | some _, some _ =>
      if listStartsWith tot "(".data && listEndsWith tot ")".data then
        match pyInt? ((tot.drop 1).dropLast) with
        | some _ =>
          match st.target_consensus with
          | none => .error .attributeError
          | some c => .ok { st with target_consensus := some (c ++ cons) }
        | none => .error .intParseError
      else .error .parenError
    | _, _ => .error .intParseError
  | _ => .error .unpackError

/-- The `T <name>` branch: record the target name and declared total, set
the start offset only when still unset, and append the sequence segment. -/
def tSeqBranch (st : PState) (l : List Char) : Except Err PState :=
  match pySplit l with
  | [k1, name, s, seqtok, e, tot] =>
    if k1 = "T".data then
      match pyInt? s, pyInt? e with
      | some sv, some _ =>
        if listStartsWith tot "(".data && listEndsWith tot ")".data then
          match pyInt? ((tot.drop 1).dropLast) with
          | some tl =>
            match st.target_sequence with
            | none => .error .attributeError
            | some ts =>
              .ok { st with
                    target_name := some name
                    target_length := some tl
                    target_start :=
                      if st.target_start = none then some (sv - 1)
                      else st.target_start
                    target_sequence := some (ts ++ seqtok) }
          | none => .error .intParseError
        else .error .parenError
      | _, _ => .error .intParseError
    else .error .tKeyMismatch
  | _ => .error .unpackError

/-- Dispatch for every tag that needs no extra stream consumption (all
branches of the `elif` chain except blank lines, `>`, and `Done!`), given the
right-stripped line.  Returns the records yielded while handling the line and
either the successor state or the fatal error. -/
def handleSimple (st : PState) (l : List Char) :
    List AlignRecord × Except Err PState :=
  if listStartsWith l " ".data then ([], colScoreBranch st l)
  else if listStartsWith l "No ".data then noBranch st l
  else if listStartsWith l "Confidence".data then ([], confidenceBranch st l)
  else if listStartsWith l "Q ss_pred ".data then ([], qSsPredBranch st l)
  else if listStartsWith l "Q Consensus ".data then ([], qConsensusBranch st l)
  else if listStartsWith l "Q ".data then ([], qSeqBranch st l)
  else if listStartsWith l "T ss_pred ".data then ([], tSsPredBranch st l)
  else if listStartsWith l "T ss_dssp ".data then ([], tSsDsspBranch st l)
  else if listStartsWith l "T Consensus ".data then ([], tConsensusBranch st l)
  else if listStartsWith l "T ".data then ([], tSeqBranch st l)
  else ([], .error (.unparsableLine (l.take 30)))

/-- After the line stream is exhausted: the final
`yield self._create_alignment()` followed by the hit-count check. -/
def atEnd (st : PState) : List AlignRecord × Option Err :=
  match createAlignment st with
  | .error e => ([], some e)
  | .ok a =>
    if st.number = st.counter then ([a], none)
    else ([a], some (.countMismatch st.number st.counter))

/-- The `for line in stream` loop of `AlignmentIterator.parse`: right-strip,
dispatch, and on exhaustion emit the final record and check the count.  The
`>` branch consumes the following line as the hit's `key=value` header; the
`Done!` branch consumes one further line and fails if that succeeds. -/
def parseLines (st : PState) : List (List Char) → List AlignRecord × Option Err
  | [] => atEnd st
  | line :: rest =>
    let l := pyRstrip line
    if l = [] then parseLines st rest
    else if listStartsWith l ">".data then
      match rest with
      | [] => ([], some .stopIteration)
      | hdr :: rest' =>
        match startHit st l hdr with
        | .error e => ([], some e)
        | .ok st' => parseLines st' rest'
    else if l = "Done!".data then
      match rest with
      | [] => atEnd st
      | _ :: _ => ([], some .dataAfterDone)
    else
      match handleSimple st l with
      | (ems, .error e) => (ems, some e)
      | (ems, .ok st') =>
        match parseLines st' rest with
        | (recs2, e2) => (ems ++ recs2, e2)

/-- `AlignmentIterator.parse`: yields nothing at all when the summary table
announced zero hits, otherwise runs the line loop. -/
def parse (st : PState) (ls : List (List Char)) :
    List AlignRecord × Option Err :=
  if st.number = 0 then ([], none) else parseLines st ls

/-! ## Construction (`AlignmentIterator.__init__`) -/

/-- One header line: strip, stop at the first blank, split into key and
value, dispatch on the key; an unrecognized key is fatal. -/
def headerStep (st : PState) (l : List Char) : Except Err (Option PState) :=
  let s := pyStrip l
  if s = [] then .ok none
  else
    match pySplitMax1 s with
    | [k, v] =>
      if k = "Query".data then .ok (some { st with query_name := some v })
      else if k = "Match_columns".data then
        match pyInt? v with
        | some n => .ok (some { st with match_columns := some n })
        | none => .error .intParseError
      else if k = "No_of_seqs".data then
        match splitOutOf v with
        | some (a, b) =>
          match pyInt? a, pyInt? b with
          | some x, some y => .ok (some { st with no_of_seqs := some (x, y) })
          | _, _ => .error .intParseError
        | none => .error .unpackError
      else if k = "Neff".data then
        match pyFloat? v with
        | some q => .ok (some { st with neff := some q })
        | none => .error .floatParseError
      else if k = "Template_Neff".data then
        match pyFloat? v with
        | some q => .ok (some { st with template_neff := some q })
        | none => .error .floatParseError
      else if k = "Searched_HMMs".data then
        match pyInt? v with
        | some n => .ok (some { st with searched_hmms := some n })
        | none => .error .intParseError
      else if k = "Date".data then .ok (some { st with rundate := some v })
      else if k = "Command".data then .ok (some { st with command_line := some v })
      else .error (.unknownKey k)
    | _ => .error .unpackError

/-- The header loop: consume lines until the first blank one. -/
def readHeader (st : PState) :
    List (List Char) → Except Err (PState × List (List Char))
  | [] => .ok (st, [])
  | l :: rest =>
    match headerStep st l with
    | .error e => .error e
    | .ok none => .ok (st, rest)
    | .ok (some st') => readHeader st' rest

/-- The exact token sequence required of the summary table's header row. -/
def tableTokens : List (List Char) :=
  ["No", "Hit", "Prob", "E-value", "P-value", "Score", "SS", "Cols",
   "Query", "HMM", "Template", "HMM"].map String.data

/-- The summary table row loop: count non-blank rows, asserting each row's
leading token equals the running 1-based index; stop at a blank line. -/
def countRows (n : Nat) :
    List (List Char) → Except Err (Nat × List (List Char))
  | [] => .ok (n, [])
  | l :: rest =>
    if pyStrip l = [] then .ok (n, rest)
    else
      match pySplitMax1 l with
      | [w, _] =>
        match pyInt? w with
        | some k =>
          if k = ((n + 1 : Nat) : Int) then countRows (n + 1) rest
          else .error .rowNumberMismatch
        | none => .error .intParseError
      | _ => .error .unpackError

/-- `AlignmentIterator.__init__` after the stream is opened: header reader,
table-header assertion, row counter.  Yields the constructed state and the
unconsumed remainder of the stream. -/
def initParser (lines : List (List Char)) :
    Except Err (PState × List (List Char)) :=
  match readHeader initState lines with
  | .error e => .error e
  | .ok (st, rest) =>
    match rest with
    | [] => .error .truncated
    | l :: rest2 =>
      if pySplit l = tableTokens then
        match countRows 0 rest2 with
        | .error e => .error e
        | .ok (n, rest3) => .ok ({ st with number := n, counter := 0 }, rest3)
      else .error .badTableHeader

/-- Construct the iterator and exhaust its lazy record sequence. -/
def parseHhr (lines : List (List Char)) : List AlignRecord × Option Err :=
  match initParser lines with
  | .error e => ([], some e)
  | .ok (st, rest) => parse st rest

/-- The hit count `N` established by the summary table reader. -/
def summaryCount (lines : List (List Char)) : Nat :=
  match initParser lines with
  | .ok (st, _) => st.number
  | .error _ => 0

/-! ## Spec-side view of the scalar annotation mapping -/

/-- The key of a `key=value` token. -/
def wordKey (w : List Char) : Option (List Char) :=
  match splitOnEq w with
  | [k, _] => some k
  | _ => none

/-- Whether a `key=value` token is accepted: exactly one `=`, and (unless
the key is `Aligned_cols`, which is skipped before conversion) the value
parses as a float after the `Identities` percent-stripping. -/
def goodWord (w : List Char) : Bool :=
  match splitOnEq w with
  | [k, v] =>
    if k = "Aligned_cols".data then true
    else (pyFloat? (if k = "Identities".data then rstripPercent v else v)).isSome
  | _ => false

/-- Following the spec's words: the scalar annotation mapping holds exactly
the header line's `key=value` tokens minus `Aligned_cols`, each value parsed
as a float, with trailing percent signs stripped from the `Identities` value
before parsing. -/
def annotsSpec (ws : List (List Char)) : List (List Char × Dec) :=
  ws.filterMap fun w =>
    match splitOnEq w with
    | [k, v] =>
      if k = "Aligned_cols".data then none
      else
        match pyFloat? (if k = "Identities".data then rstripPercent v else v) with
        | some q => some (k, q)
        | none => none
    | _ => none

/-- The keys the spec says are stored: the tokens' keys minus
`Aligned_cols`. -/
def specKeys (ws : List (List Char)) : List (List Char) :=
  (ws.filterMap wordKey).filter (fun k => k ≠ "Aligned_cols".data)

/-! ## Wrapped blocks of one hit -/

/-- One wrapped segment (block) of a hit's alignment, reduced to its
`Q`-sequence and `T`-sequence lines: the raw lines, their six tokens, and
the parsed numeric fields. -/
structure QTBlock where
  qLine : List Char
  qName : List Char
  qStartTok : List Char
  qSeg : List Char
  qEndTok : List Char
  qTotTok : List Char
  qStartVal : Int
  qEndVal : Int
  qTotVal : Int
  tLine : List Char
  tName : List Char
  tStartTok : List Char
  tSeg : List Char
  tEndTok : List Char
  tTotTok : List Char
  tStartVal : Int
  tEndVal : Int
  tTotVal : Int
deriving DecidableEq, Repr

/-- Well-formedness of one block: each line is already right-stripped,
routes through the dispatch chain to the `Q `/`T ` branch, tokenizes into
the stated six fields, and its numeric fields parse as stated. -/
def WfQT (b : QTBlock) : Prop :=
  pyRstrip b.qLine = b.qLine ∧ b.qLine ≠ [] ∧
  listStartsWith b.qLine ">".data = false ∧ b.qLine ≠ "Done!".data ∧
  listStartsWith b.qLine " ".data = false ∧
  listStartsWith b.qLine "No ".data = false ∧
  listStartsWith b.qLine "Confidence".data = false ∧
  listStartsWith b.qLine "Q ss_pred ".data = false ∧
  listStartsWith b.qLine "Q Consensus ".data = false ∧
  listStartsWith b.qLine "Q ".data = true ∧
  pySplit b.qLine =
    ["Q".data, b.qName, b.qStartTok, b.qSeg, b.qEndTok, b.qTotTok] ∧
  pyInt? b.qStartTok = some b.qStartVal ∧
  pyInt? b.qEndTok = some b.qEndVal ∧
  listStartsWith b.qTotTok "(".data = true ∧
  listEndsWith b.qTotTok ")".data = true ∧
  pyInt? ((b.qTotTok.drop 1).dropLast) = some b.qTotVal ∧
  pyRstrip b.tLine = b.tLine ∧ b.tLine ≠ [] ∧
  listStartsWith b.tLine ">".data = false ∧ b.tLine ≠ "Done!".data ∧
  listStartsWith b.tLine " ".data = false ∧
  listStartsWith b.tLine "No ".data = false ∧
  listStartsWith b.tLine "Confidence".data = false ∧
  listStartsWith b.tLine "Q ss_pred ".data = false ∧
  listStartsWith b.tLine "Q Consensus ".data = false ∧
  listStartsWith b.tLine "Q ".data = false ∧
  listStartsWith b.tLine "T ss_pred ".data = false ∧
  listStartsWith b.tLine "T ss_dssp ".data = false ∧
  listStartsWith b.tLine "T Consensus ".data = false ∧
  listStartsWith b.tLine "T ".data = true ∧
  pySplit b.tLine =
    ["T".data, b.tName, b.tStartTok, b.tSeg, b.tEndTok, b.tTotTok] ∧
  pyInt? b.tStartTok = some b.tStartVal ∧
  pyInt? b.tEndTok = some b.tEndVal ∧
  listStartsWith b.tTotTok "(".data = true ∧
  listEndsWith b.tTotTok ")".data = true ∧
  pyInt? ((b.tTotTok.drop 1).dropLast) = some b.tTotVal

instance decWfQT (b : QTBlock) : Decidable (WfQT b) := by
  unfold WfQT
  exact inferInstance

/-- The stream lines of a list of blocks, in block order. -/
def blockLines (bs : List QTBlock) : List (List Char) :=
  (bs.map (fun b => [b.qLine, b.tLine])).flatten

/-- The start offset stored after processing blocks whose 1-based starts
are `vs`, given the previously stored offset: set from the first block only
when still unset. -/
def startAfter (o : Option Int) (vs : List Int) : Option Int :=
  match o, vs with
  | some v, _ => some v
  | none, [] => none
  | none, v :: _ => some (v - 1)

/-- A first wrapped block of a hit (columns 1–3 of the query). -/
def blockA : QTBlock :=
  { qLine := "Q test 1 ABC 3 (6)".data, qName := "test".data,
    qStartTok := "1".data, qSeg := "ABC".data, qEndTok := "3".data,
    qTotTok := "(6)".data, qStartVal := 1, qEndVal := 3, qTotVal := 6,
    tLine := "T hitA 2 XYZ 4 (9)".data, tName := "hitA".data,
    tStartTok := "2".data, tSeg := "XYZ".data, tEndTok := "4".data,
    tTotTok := "(9)".data, tStartVal := 2, tEndVal := 4, tTotVal := 9 }

/-- The continuation block of `blockA` (columns 4–6 of the query). -/
def blockB : QTBlock :=
  { qLine := "Q test 4 DEF 6 (6)".data, qName := "test".data,
    qStartTok := "4".data, qSeg := "DEF".data, qEndTok := "6".data,
    qTotTok := "(6)".data, qStartVal := 4, qEndVal := 6, qTotVal := 6,
    tLine := "T hitA 5 UVW 7 (9)".data, tName := "hitA".data,
    tStartTok := "5".data, tSeg := "UVW".data, tEndTok := "7".data,
    tTotTok := "(9)".data, tStartVal := 5, tEndVal := 7, tTotVal := 9 }

/-! ## Concrete sample streams and states -/

/-- A well-formed hhr report whose summary table is empty (zero hits). -/
def zeroLines : List (List Char) :=
  ["Query test".data,
   "".data,
   "No Hit Prob E-value P-value Score SS Cols Query HMM Template HMM".data,
   "".data]

/-- The iterator state right after the constructor consumed `zeroLines`. -/
def zeroState : PState := { query_name := some "test".data }

/-- The iterator state after a one-hit header, a `No 1` separator and a `>`
header have been consumed. -/
def hitState : PState :=
  { query_name := some "test".data, match_columns := some 6, number := 1,
    counter := 1, hmm_name := some "hitA".data,
    hmm_description := some "some protein".data,
    query_ss_pred := some [], query_consensus := some [],
    query_sequence := some [], target_ss_pred := some [],
    target_consensus := some [], target_ss_dssp := some [],
    target_sequence := some [], column_score := some [],
    confidence := some [], annotations := some [] }

/-- `hitState` with a declared query total that contradicts
`Match_columns`. -/
def mismatchState : PState := { hitState with query_length := some 7 }

/-- `hitState` with gapped tracks of unequal lengths. -/
def unequalState : PState :=
  { hitState with
    query_length := some 6,
    target_name := some "hitA".data,
    query_sequence := some "AB".data,
    target_sequence := some "ABC".data }

/-- `hitState` with the query identifier `seq`. -/
def seqState : PState := { hitState with query_name := some "seq".data }

/-- `hitState` after a complete one-block hit has been accumulated. -/
def fullState : PState :=
  { hitState with
    query_length := some 6,
    target_name := some "hitA".data,
    query_sequence := some "AB-C".data,
    target_sequence := some "WX-Z".data,
    target_start := some 1,
    query_start := some 0,
    target_length := some 9,
    query_consensus := some "ab-c".data,
    target_consensus := some "wx-z".data,
    target_ss_dssp := some "CC-C".data,
    query_ss_pred := some "hh-h".data,
    target_ss_pred := some "ee-e".data,
    confidence := some "9999".data }

/-- The metadata keys recognised by the header reader. -/
def headerKeys : List (List Char) :=
  ["Query", "Match_columns", "No_of_seqs", "Neff", "Template_Neff",
   "Searched_HMMs", "Date", "Command"].map String.data

/-- `fullState` with an accumulated query consensus longer than the declared
query total (nothing in the parser checks these against each other). -/
def oversizedState : PState :=
  { fullState with query_consensus := some "abcdefghij".data }

/-- Observer: the length of a built record's query consensus track. -/
def qConsensusLen (r : Except Err AlignRecord) : Option Nat :=
  match r with
  | .ok a => some a.q_consensus.length
  | .error _ => none

/-- Observer: a built record's declared query total length. -/
def qLenOf (r : Except Err AlignRecord) : Option Int :=
  match r with
  | .ok a => some a.q_len
  | .error _ => none

example : pySplit "  a bc  d ".data = ["a".data, "bc".data, "d".data] := by decide
example : pySplitMax1 " a  bc d ".data = ["a".data, "bc d ".data] := by decide
example : pySplitMax1 " a  ".data = ["a".data] := by decide
example : pyRsplitMax1 "Q ss_pred cChH".data = ["Q ss_pred".data, "cChH".data] := by decide
example : pyInt? " -12 ".data = some (-12) := by decide
example : pyFloat? "1e-3".data = some ⟨1, -3⟩ := by decide
example : pyFloat? "99.9".data = some ⟨999, -1⟩ := by decide
example : pyFloat? "100".data = some ⟨1, 2⟩ := by decide
example : pyFloat? "100.0".data = some ⟨1, 2⟩ := by decide
example : pyFloat? "-2.5E2".data = some ⟨-25, 1⟩ := by decide
example : pyFloat? "abc".data = none := by decide
example : splitOutOf "12 out of 345".data = some ("12".data, "345".data) := by decide
example : rstripPercent "100%".data = "100".data := by decide

example : initParser zeroLines = .ok (zeroState, []) := by decide
example : parseHhr zeroLines = ([], none) := by decide
example : summaryCount zeroLines = 0 := by decide
example : (handleSimple hitState "Q test 1 ABC 3 (6)".data).2 =
    .ok { hitState with query_length := some 6, query_start := some 0,
                        query_sequence := some "ABC".data } := by decide

/-! ## Basic lemmas -/

theorem listStartsWith_iff (p l : List Char) :
    listStartsWith l p = true ↔ ∃ t, l = p ++ t := by
  induction p generalizing l with
  | nil => simp [listStartsWith]
  | cons b p ih =>
    cases l with
    | nil => simp [listStartsWith]
    | cons a s =>
      simp only [listStartsWith, Bool.and_eq_true, decide_eq_true_eq, ih,
        List.cons_append, List.cons.injEq]
      constructor
      · rintro ⟨rfl, t, rfl⟩; exact ⟨t, rfl, rfl⟩
      · rintro ⟨t, rfl, rfl⟩; exact ⟨rfl, t, rfl⟩

theorem padTrack_length (c : List Char) (s t : Int) (hs : 0 ≤ s)
    (hfit : s + (c.length : Int) ≤ t) :
    ((padTrack c s t).length : Int) = t := by
  simp only [padTrack, spacesI, List.length_append, List.length_replicate]
  have h1 : (s.toNat : Int) = s := Int.toNat_of_nonneg hs
  have h2 : 0 ≤ t - (s + (c.length : Int)) := by omega
  omega

theorem noRest_ok (st st' : PState) (l : List Char)
    (h : noRest st l = .ok st') :
    st' = { st with counter := st.counter + 1 } := by
  unfold noRest at h
  repeat' split at h
  all_goals first
    | exact Except.noConfusion h
    | exact (Except.ok.inj h).symm

theorem colScoreBranch_pres (st st' : PState) (l : List Char)
    (h : colScoreBranch st l = .ok st') :
    st'.counter = st.counter ∧ st'.number = st.number := by
  unfold colScoreBranch at h
  repeat' split at h
  all_goals first
    | exact Except.noConfusion h
    | (obtain rfl := Except.ok.inj h; exact ⟨rfl, rfl⟩)

theorem confidenceBranch_pres (st st' : PState) (l : List Char)
    (h : confidenceBranch st l = .ok st') :
    st'.counter = st.counter ∧ st'.number = st.number := by
  unfold confidenceBranch at h
  repeat' split at h
  all_goals first
    | exact Except.noConfusion h
    | (obtain rfl := Except.ok.inj h; exact ⟨rfl, rfl⟩)

theorem qSsPredBranch_pres (st st' : PState) (l : List Char)
    (h : qSsPredBranch st l = .ok st') :
    st'.counter = st.counter ∧ st'.number = st.number := by
  unfold qSsPredBranch at h
  repeat' split at h
  all_goals first
    | exact Except.noConfusion h
    | (obtain rfl := Except.ok.inj h; exact ⟨rfl, rfl⟩)

theorem qConsensusBranch_pres (st st' : PState) (l : List Char)
    (h : qConsensusBranch st l = .ok st') :
    st'.counter = st.counter ∧ st'.number = st.number := by
  unfold qConsensusBranch at h
  repeat' split at h
  all_goals first
    | exact Except.noConfusion h
    | (obtain rfl := Except.ok.inj h; exact ⟨rfl, rfl⟩)

theorem qSeqBranch_pres (st st' : PState) (l : List Char)
    (h : qSeqBranch st l = .ok st') :
    st'.counter = st.counter ∧ st'.number = st.number := by
  unfold qSeqBranch at h
  repeat' split at h
  all_goals first
    | exact Except.noConfusion h
    | (obtain rfl := Except.ok.inj h; exact ⟨rfl, rfl⟩)

theorem tSsPredBranch_pres (st st' : PState) (l : List Char)
    (h : tSsPredBranch st l = .ok st') :
    st'.counter = st.counter ∧ st'.number = st.number := by
  unfold tSsPredBranch at h
  repeat' split at h
  all_goals first
    | exact Except.noConfusion h
    | (obtain rfl := Except.ok.inj h; exact ⟨rfl, rfl⟩)

theorem tSsDsspBranch_pres (st st' : PState) (l : List Char)
    (h : tSsDsspBranch st l = .ok st') :
    st'.counter = st.counter ∧ st'.number = st.number := by
  unfold tSsDsspBranch at h
  repeat' split at h
  all_goals first
    | exact Except.noConfusion h
    | (obtain rfl := Except.ok.inj h; exact ⟨rfl, rfl⟩)

theorem tConsensusBranch_pres (st st' : PState) (l : List Char)
    (h : tConsensusBranch st l = .ok st') :
    st'.counter = st.counter ∧ st'.number = st.number := by
  unfold tConsensusBranch at h
  repeat' split at h
  all_goals first
    | exact Except.noConfusion h
    | (obtain rfl := Except.ok.inj h; exact ⟨rfl, rfl⟩)

theorem tSeqBranch_pres (st st' : PState) (l : List Char)
    (h : tSeqBranch st l = .ok st') :
    st'.counter = st.counter ∧ st'.number = st.number := by
  unfold tSeqBranch at h
  repeat' split at h
  all_goals first
    | exact Except.noConfusion h
    | (obtain rfl := Except.ok.inj h; exact ⟨rfl, rfl⟩)

theorem noBranch_counter (st st' : PState) (l : List Char)
    (ems : List AlignRecord) (h : noBranch st l = (ems, .ok st')) :
    st'.number = st.number ∧ st'.counter = st.counter + 1 ∧
      ems.length = if st.counter = 0 then 0 else 1 := by
  unfold noBranch at h
  split at h
  · rename_i hc
    split at h
    · exact absurd h (by simp)
    · split at h
      · exact absurd h (by simp)
      · rename_i st'' hno
        injection h with h1 h2
        injection h2 with h2
        subst h2; subst h1
        obtain rfl := noRest_ok st st'' l hno
        refine ⟨rfl, rfl, ?_⟩
        simp only [List.length_cons, List.length_nil]
        split <;> omega
  · rename_i hc
    split at h
    · exact absurd h (by simp)
    · rename_i st'' hno
      injection h with h1 h2
      injection h2 with h2
      subst h2; subst h1
      obtain rfl := noRest_ok st st'' l hno
      refine ⟨rfl, rfl, ?_⟩
      simp only [List.length_nil]
      split <;> omega

theorem handleSimple_counter (st st' : PState) (l : List Char)
    (ems : List AlignRecord) (h : handleSimple st l = (ems, .ok st')) :
    st'.number = st.number ∧
      ((st'.counter = st.counter ∧ ems = []) ∨
        (st'.counter = st.counter + 1 ∧
          ems.length = if st.counter = 0 then 0 else 1)) := by
  unfold handleSimple at h
  split at h
  · injection h with h1 h2
    obtain ⟨hc, hn⟩ := colScoreBranch_pres st st' l h2
    exact ⟨hn, Or.inl ⟨hc, h1.symm⟩⟩
  · split at h
    · obtain ⟨hn, hc, he⟩ := noBranch_counter st st' l ems h
      exact ⟨hn, Or.inr ⟨hc, he⟩⟩
    · split at h
      · injection h with h1 h2
        obtain ⟨hc, hn⟩ := confidenceBranch_pres st st' l h2
        exact ⟨hn, Or.inl ⟨hc, h1.symm⟩⟩
      · split at h
        · injection h with h1 h2
          obtain ⟨hc, hn⟩ := qSsPredBranch_pres st st' l h2
          exact ⟨hn, Or.inl ⟨hc, h1.symm⟩⟩
        · split at h
          · injection h with h1 h2
            obtain ⟨hc, hn⟩ := qConsensusBranch_pres st st' l h2
            exact ⟨hn, Or.inl ⟨hc, h1.symm⟩⟩
          · split at h
            · injection h with h1 h2
              obtain ⟨hc, hn⟩ := qSeqBranch_pres st st' l h2
              exact ⟨hn, Or.inl ⟨hc, h1.symm⟩⟩
            · split at h
              · injection h with h1 h2
                obtain ⟨hc, hn⟩ := tSsPredBranch_pres st st' l h2
                exact ⟨hn, Or.inl ⟨hc, h1.symm⟩⟩
              · split at h
                · injection h with h1 h2
                  obtain ⟨hc, hn⟩ := tSsDsspBranch_pres st st' l h2
                  exact ⟨hn, Or.inl ⟨hc, h1.symm⟩⟩
                · split at h
                  · injection h with h1 h2
                    obtain ⟨hc, hn⟩ := tConsensusBranch_pres st st' l h2
                    exact ⟨hn, Or.inl ⟨hc, h1.symm⟩⟩
                  · split at h
                    · injection h with h1 h2
                      obtain ⟨hc, hn⟩ := tSeqBranch_pres st st' l h2
                      exact ⟨hn, Or.inl ⟨hc, h1.symm⟩⟩
                    · injection h with h1 h2
                      exact Except.noConfusion h2

theorem startHit_pres (st st' : PState) (l hdr : List Char)
    (h : startHit st l hdr = .ok st') :
    st'.counter = st.counter ∧ st'.number = st.number ∧
      st'.query_name = st.query_name ∧ st'.match_columns = st.match_columns := by
  unfold startHit at h
  repeat' split at h
  all_goals first
    | exact Except.noConfusion h
    | (obtain rfl := Except.ok.inj h; exact ⟨rfl, rfl, rfl, rfl⟩)

theorem atEnd_count (st : PState) (recs : List AlignRecord)
    (h : atEnd st = (recs, none)) :
    st.counter = st.number ∧ recs.length = 1 := by
  unfold atEnd at h
  split at h
  · exact absurd h (by simp)
  · split at h
    · rename_i hn
      injection h with h1 h2
      subst h1
      exact ⟨hn.symm, rfl⟩
    · exact absurd h (by simp)

theorem parseLines_count_aux (n : Nat) :
    ∀ (ls : List (List Char)) (st : PState) (recs : List AlignRecord),
      ls.length ≤ n → parseLines st ls = (recs, none) → 1 ≤ st.number →
      st.counter ≤ st.number ∧
        recs.length + max st.counter 1 = st.number + 1 := by
  induction n with
  | zero =>
    intro ls st recs hlen h h1
    obtain rfl : ls = [] := List.length_eq_zero.mp (Nat.le_zero.mp hlen)
    rw [parseLines] at h
    obtain ⟨hc, hr⟩ := atEnd_count st recs h
    omega
  | succ n ih =>
    intro ls st recs hlen h h1
    cases ls with
    | nil =>
      rw [parseLines] at h
      obtain ⟨hc, hr⟩ := atEnd_count st recs h
      omega
    | cons line rest =>
      rw [parseLines.eq_def] at h
      dsimp only at h
      simp only [List.length_cons] at hlen
      split at h
      · exact ih rest st recs (by omega) h h1
      · split at h
        · -- the `>` branch
          split at h
          · exact absurd h (by simp)
          · -- rest = hdr :: rest'
            split at h
            · exact absurd h (by simp)
            · rename_i st' hst
              simp only [List.length_cons] at hlen
              obtain ⟨hc, hn, -, -⟩ := startHit_pres st st' _ _ hst
              have := ih _ st' recs (by omega) h (by omega)
              omega
        · split at h
          · -- the `Done!` branch
            split at h
            · obtain ⟨hc, hr⟩ := atEnd_count st recs h
              omega
            · exact absurd h (by simp)
          · -- ordinary dispatch
            split at h
            · exact absurd h (by simp)
            · rename_i ems st' hhs
              injection h with hrecs h2
              have hrec : parseLines st' rest = ((parseLines st' rest).1, none) :=
                Prod.ext_iff.mpr ⟨rfl, h2⟩
              obtain ⟨hn, hcase⟩ := handleSimple_counter st st' _ ems hhs
              obtain ⟨hc1, hih⟩ :=
                ih rest st' ((parseLines st' rest).1) (by omega) hrec (by omega)
              subst hrecs
              rcases hcase with ⟨hc, rfl⟩ | ⟨hc, heml⟩
              · simp only [List.nil_append]
                omega
              · simp only [List.length_append]
                rcases Nat.eq_zero_or_pos st.counter with h0 | h0
                · rw [if_pos h0] at heml
                  omega
                · rw [if_neg (by omega)] at heml
                  omega

theorem parse_count (st : PState) (ls : List (List Char))
    (recs : List AlignRecord) (hc : st.counter = 0)
    (h : parse st ls = (recs, none)) : recs.length = st.number := by
  unfold parse at h
  split at h
  · rename_i h0
    injection h with h1 h2
    rw [← h1, h0]
    rfl
  · rename_i h0
    have := parseLines_count_aux ls.length ls st recs le_rfl h (by omega)
    omega

theorem initParser_counter (lines : List (List Char)) (st : PState)
    (rest : List (List Char)) (h : initParser lines = .ok (st, rest)) :
    st.counter = 0 := by
  unfold initParser at h
  repeat' split at h
  all_goals try exact Except.noConfusion h
  obtain h2 := Except.ok.inj h
  injection h2 with ha hb
  subst ha
  rfl

/-- **C1.**  For every well-formed input stream (one the parser accepts
without error), the record sequence produced by `parse` has exactly `N`
elements, `N` being the hit count established by the summary table reader;
and when `N = 0`, `parse` yields no records and returns without consuming
any further lines (its result does not depend on the stream at all). -/
theorem parse_yields_summary_count :
    (∀ (lines : List (List Char)) (recs : List AlignRecord),
        parseHhr lines = (recs, none) → recs.length = summaryCount lines) ∧
      (∀ (st : PState) (ls : List (List Char)),
        st.number = 0 → parse st ls = ([], none)) := by
  constructor
  · intro lines recs h
    unfold parseHhr at h
    unfold summaryCount
    split at h
    · exact absurd h (by simp)
    · rename_i st0 rest0 hinit
      rw [hinit]
      exact parse_count st0 rest0 recs
        (initParser_counter lines st0 rest0 hinit) h
  · intro st ls h0
    unfold parse
    rw [if_pos h0]

theorem createAlignment_q_len (st : PState) (a : AlignRecord)
    (h : createAlignment st = .ok a) : st.query_length = some a.q_len := by
  unfold createAlignment at h
  repeat' split at h
  all_goals try exact Except.noConfusion h
  obtain rfl := Except.ok.inj h
  assumption

theorem createAlignment_t_len (st : PState) (a : AlignRecord)
    (h : createAlignment st = .ok a) : st.target_length = some a.t_len := by
  unfold createAlignment at h
  repeat' split at h
  all_goals try exact Except.noConfusion h
  obtain rfl := Except.ok.inj h
  assumption

theorem createAlignment_match_columns (st : PState) (a : AlignRecord)
    (h : createAlignment st = .ok a) : st.match_columns = some a.q_len := by
  unfold createAlignment at h
  repeat' split at h
  all_goals try exact Except.noConfusion h
  obtain rfl := Except.ok.inj h
  subst_vars
  assumption

theorem parse_yields_summary_count_witness :
    parseHhr zeroLines = ([], none) ∧
      (([] : List AlignRecord).length = summaryCount zeroLines) ∧
      parse zeroState ["garbage".data] = ([], none) := by
  have h : parseHhr zeroLines = ([], none) := by decide
  refine ⟨h, parse_yields_summary_count.1 zeroLines [] h, ?_⟩
  exact parse_yields_summary_count.2 zeroState ["garbage".data] (by decide)

/-- **C10.**  At record-building time the query's declared total length (the
`(<total>)` of its `Q` lines) must equal the header's `Match_columns` value:
a mismatch fails with a dedicated error (and `atEnd` emits no record), and
any successfully built record carries `Match_columns` as its query length. -/
theorem query_total_matches_match_columns (st : PState) (qn : List Char)
    (ql mc : Int) (hqn : st.query_name = some qn)
    (hql : st.query_length = some ql) (hmc : st.match_columns = some mc) :
    (ql ≠ mc → createAlignment st = .error .matchColumnsMismatch ∧
      atEnd st = ([], some .matchColumnsMismatch)) ∧
    (∀ a, createAlignment st = .ok a → a.q_len = mc ∧ ql = mc) := by
  constructor
  · intro hne
    have hc : createAlignment st = .error .matchColumnsMismatch := by
      unfold createAlignment
      rw [hqn, hql, hmc]
      dsimp only
      rw [if_neg hne]
    refine ⟨hc, ?_⟩
    unfold atEnd
    rw [hc]
  · intro a ha
    have h1 := createAlignment_q_len st a ha
    have h2 := createAlignment_match_columns st a ha
    rw [hql] at h1
    rw [hmc] at h2
    obtain h1 := Option.some.inj h1
    obtain h2 := Option.some.inj h2
    exact ⟨h2.symm, h1.trans h2.symm⟩

theorem query_total_matches_match_columns_witness :
    createAlignment mismatchState = .error Err.matchColumnsMismatch ∧
      atEnd mismatchState = ([], some Err.matchColumnsMismatch) :=
  (query_total_matches_match_columns mismatchState
      "test".data 7 6 (by decide) (by decide) (by decide)).1 (by decide)

/-- **C5.**  At finalize time, if the accumulated gapped target and query
tracks differ in length, the builder fails with the length-mismatch error
and `atEnd` emits no record; if they agree, that error cannot occur. -/
theorem track_length_check (st : PState) (qn : List Char) (ql mc : Int)
    (tn hn hd qs ts : List Char)
    (hqn : st.query_name = some qn) (hql : st.query_length = some ql)
    (hmc : st.match_columns = some mc) (hqlmc : ql = mc)
    (htn : st.target_name = some tn) (hhn : st.hmm_name = some hn)
    (hhd : st.hmm_description = some hd)
    (hqs : st.query_sequence = some qs) (hts : st.target_sequence = some ts) :
    (ts.length ≠ qs.length →
      createAlignment st = .error .trackLengthMismatch ∧
      atEnd st = ([], some .trackLengthMismatch)) ∧
    (ts.length = qs.length →
      createAlignment st ≠ .error .trackLengthMismatch) := by
  constructor
  · intro hne
    have hc : createAlignment st = .error .trackLengthMismatch := by
      unfold createAlignment
      rw [hqn, hql, hmc]
      dsimp only
      rw [if_pos hqlmc, htn, hhn, hhd, hqs, hts]
      dsimp only
      rw [if_neg hne]
    refine ⟨hc, ?_⟩
    unfold atEnd
    rw [hc]
  · intro heq hcontra
    unfold createAlignment at hcontra
    rw [hqn, hql, hmc] at hcontra
    dsimp only at hcontra
    rw [if_pos hqlmc, htn, hhn, hhd, hqs, hts] at hcontra
    dsimp only at hcontra
    rw [if_pos heq] at hcontra
    repeat' split at hcontra
    all_goals
      first
        | exact Except.noConfusion hcontra
        | exact Err.noConfusion (Except.error.inj hcontra)

theorem track_length_check_witness :
    createAlignment unequalState = .error Err.trackLengthMismatch ∧
      atEnd unequalState = ([], some Err.trackLengthMismatch) :=
  (track_length_check unequalState "test".data 6 6 "hitA".data "hitA".data
      "some protein".data "AB".data "ABC".data (by decide) (by decide)
      (by decide) rfl (by decide) (by decide) (by decide) (by decide)
      (by decide)).1 (by decide)

/-- **C4** (amended).  After the `Done!` sentinel line, a fatal
trailing-data error is raised precisely when *any* further line follows,
blank or not; end-of-stream immediately after `Done!` is not an error and
parsing proceeds to finalization. -/
theorem done_sentinel (st : PState) (line : List Char)
    (rest : List (List Char)) (hline : pyRstrip line = "Done!".data) :
    (rest ≠ [] → parseLines st (line :: rest) = ([], some .dataAfterDone)) ∧
    (rest = [] → parseLines st (line :: rest) = atEnd st) := by
  have hbody : parseLines st (line :: rest) =
      (match rest with
        | [] => atEnd st
        | _ :: _ => ([], some .dataAfterDone)) := by
    rw [parseLines.eq_def]
    dsimp only
    rw [hline, if_neg (by decide), if_neg (by decide), if_pos rfl]
  constructor
  · intro h
    cases rest with
    | nil => exact absurd rfl h
    | cons a t => rw [hbody]
  · intro h
    subst h
    rw [hbody]

theorem done_sentinel_witness :
    parseLines hitState ["Done!".data, "".data] =
        ([], some Err.dataAfterDone) ∧
      parseLines hitState ["Done!".data] = atEnd hitState := by
  refine ⟨(done_sentinel hitState "Done!".data ["".data]
      (by decide)).1 (by decide), ?_⟩
  exact (done_sentinel hitState "Done!".data [] (by decide)).2 rfl

/-- **C4 counterexample.**  The claim says trailing blank content after
`Done!` is not an error; the code raises the trailing-data error even when
the only following line is blank. -/
theorem done_sentinel_cx :
    pyStrip "".data = [] ∧
      parse hitState ["Done!".data, "".data] =
        ([], some Err.dataAfterDone) := by decide

/-- **C6.**  In every successfully built record, each per-residue annotation
track (query `Consensus` and `ss_pred`; target `Consensus`, `ss_pred`,
`ss_dssp`, `Confidence`) is formed by stripping the track's embedded
gap/space characters, left-padding with blanks to the start offset and
right-padding with blanks to the declared total length, and — whenever the
aligned region fits inside the declared total — its length is exactly that
declared total. -/
theorem annotation_tracks_full_length (st : PState)
    (qn tn hn hd qs ts qc tc tdssp qsp tsp conf cs : List Char)
    (ann : List (List Char × Dec)) (ql mc tl tst qst : Int)
    (hqn : st.query_name = some qn) (hql : st.query_length = some ql)
    (hmc : st.match_columns = some mc) (hqlmc : ql = mc)
    (htn : st.target_name = some tn) (hhn : st.hmm_name = some hn)
    (hhd : st.hmm_description = some hd)
    (hqs : st.query_sequence = some qs) (hts : st.target_sequence = some ts)
    (hlen : ts.length = qs.length)
    (htst : st.target_start = some tst) (hqst : st.query_start = some qst)
    (htl : st.target_length = some tl)
    (hqc : st.query_consensus = some qc) (htc : st.target_consensus = some tc)
    (htd : st.target_ss_dssp = some tdssp) (hqsp : st.query_ss_pred = some qsp)
    (htsp : st.target_ss_pred = some tsp) (hconf : st.confidence = some conf)
    (hann : st.annotations = some ann) (hcs : st.column_score = some cs)
    (h0q : 0 ≤ qst) (h0t : 0 ≤ tst)
    (hf1 : qst + ((removeChar '-' qc).length : Int) ≤ ql)
    (hf2 : tst + ((removeChar '-' tc).length : Int) ≤ tl)
    (hf3 : tst + ((removeChar '-' tdssp).length : Int) ≤ tl)
    (hf4 : qst + ((removeChar '-' qsp).length : Int) ≤ ql)
    (hf5 : tst + ((removeChar '-' tsp).length : Int) ≤ tl)
    (hf6 : tst + ((removeChar ' ' conf).length : Int) ≤ tl) :
    ∃ a, createAlignment st = .ok a ∧
      a.q_len = ql ∧ a.t_len = tl ∧
      a.q_consensus = padTrack (removeChar '-' qc) qst ql ∧
      a.q_ss_pred = padTrack (removeChar '-' qsp) qst ql ∧
      a.t_consensus = padTrack (removeChar '-' tc) tst tl ∧
      a.t_ss_dssp = padTrack (removeChar '-' tdssp) tst tl ∧
      a.t_ss_pred = padTrack (removeChar '-' tsp) tst tl ∧
      a.t_confidence = padTrack (removeChar ' ' conf) tst tl ∧
      (a.q_consensus.length : Int) = ql ∧ (a.q_ss_pred.length : Int) = ql ∧
      (a.t_consensus.length : Int) = tl ∧ (a.t_ss_dssp.length : Int) = tl ∧
      (a.t_ss_pred.length : Int) = tl ∧ (a.t_confidence.length : Int) = tl := by
  refine ⟨{ hmm_name := hn, hmm_description := hd, target_id := tn,
            query_id := qn, t_start := tst, q_start := qst, t_len := tl,
            q_len := ql, t_res := removeChar '-' ts, q_res := removeChar '-' qs,
            coordinates :=
              (inferCoordinates ts qs).map (fun p => (p.1 + tst, p.2 + qst)),
            q_consensus := padTrack (removeChar '-' qc) qst ql,
            t_consensus := padTrack (removeChar '-' tc) tst tl,
            t_ss_dssp := padTrack (removeChar '-' tdssp) tst tl,
            q_ss_pred := padTrack (removeChar '-' qsp) qst ql,
            t_ss_pred := padTrack (removeChar '-' tsp) tst tl,
            t_confidence := padTrack (removeChar ' ' conf) tst tl,
            annotations := ann, column_score := cs },
    ?_, rfl, rfl, rfl, rfl, rfl, rfl, rfl, rfl,
    padTrack_length _ _ _ h0q hf1, padTrack_length _ _ _ h0q hf4,
    padTrack_length _ _ _ h0t hf2, padTrack_length _ _ _ h0t hf3,
    padTrack_length _ _ _ h0t hf5, padTrack_length _ _ _ h0t hf6⟩
  unfold createAlignment
  rw [hqn, hql, hmc]
  dsimp only
  rw [if_pos hqlmc, htn, hhn, hhd, hqs, hts]
  dsimp only
  rw [if_pos hlen, htst, hqst]
  dsimp only
  rw [htl, hqc, htc]
  dsimp only
  rw [htd, hqsp, htsp]
  dsimp only
  rw [hconf, hann, hcs]

theorem annotation_tracks_full_length_witness :
    ∃ a, createAlignment fullState = .ok a ∧
      a.q_len = 6 ∧ a.t_len = 9 ∧
      a.q_consensus = padTrack (removeChar '-' "ab-c".data) 0 6 ∧
      a.q_ss_pred = padTrack (removeChar '-' "hh-h".data) 0 6 ∧
      a.t_consensus = padTrack (removeChar '-' "wx-z".data) 1 9 ∧
      a.t_ss_dssp = padTrack (removeChar '-' "CC-C".data) 1 9 ∧
      a.t_ss_pred = padTrack (removeChar '-' "ee-e".data) 1 9 ∧
      a.t_confidence = padTrack (removeChar ' ' "9999".data) 1 9 ∧
      (a.q_consensus.length : Int) = 6 ∧ (a.q_ss_pred.length : Int) = 6 ∧
      (a.t_consensus.length : Int) = 9 ∧ (a.t_ss_dssp.length : Int) = 9 ∧
      (a.t_ss_pred.length : Int) = 9 ∧ (a.t_confidence.length : Int) = 9 :=
  annotation_tracks_full_length fullState "test".data "hitA".data
    "hitA".data "some protein".data "AB-C".data "WX-Z".data "ab-c".data
    "wx-z".data "CC-C".data "hh-h".data "ee-e".data "9999".data []
    [] 6 6 9 1 0 (by decide) (by decide) (by decide) rfl (by decide)
    (by decide) (by decide) (by decide) (by decide) (by decide) (by decide)
    (by decide) (by decide) (by decide) (by decide) (by decide) (by decide)
    (by decide) (by decide) (by decide) (by decide) (by decide) (by decide)
    (by decide) (by decide) (by decide) (by decide) (by decide) (by decide)

/-- **C6 counterexample.**  The claim promises every emitted record's
annotation tracks have exactly the declared total length, but the builder
never checks an annotation track against the declared total: a hit whose
accumulated query consensus outgrows the total is emitted with a longer
track (here 10 characters against a declared query total of 6). -/
theorem annotation_tracks_full_length_cx :
    oversizedState.query_length = some 6 ∧
      qLenOf (createAlignment oversizedState) = some 6 ∧
      qConsensusLen (createAlignment oversizedState) = some 10 := by decide

/-- **C8.**  A non-blank header line whose key token is none of the eight
recognized metadata keys makes construction fail with the unknown-key error,
whatever state the header reader has reached; and whenever construction
fails, the whole run produces no records at all. -/
theorem unknown_header_key (st : PState) (l : List Char)
    (rest : List (List Char)) (k v : List Char) (hnb : pyStrip l ≠ [])
    (hsplit : pySplitMax1 (pyStrip l) = [k, v]) (hk : k ∉ headerKeys) :
    readHeader st (l :: rest) = .error (.unknownKey k) ∧
      (∀ lines e, initParser lines = .error e → parseHhr lines = ([], some e)) := by
  have h1 : k ≠ "Query".data := fun h => hk (by rw [h]; decide)
  have h2 : k ≠ "Match_columns".data := fun h => hk (by rw [h]; decide)
  have h3 : k ≠ "No_of_seqs".data := fun h => hk (by rw [h]; decide)
  have h4 : k ≠ "Neff".data := fun h => hk (by rw [h]; decide)
  have h5 : k ≠ "Template_Neff".data := fun h => hk (by rw [h]; decide)
  have h6 : k ≠ "Searched_HMMs".data := fun h => hk (by rw [h]; decide)
  have h7 : k ≠ "Date".data := fun h => hk (by rw [h]; decide)
  have h8 : k ≠ "Command".data := fun h => hk (by rw [h]; decide)
  constructor
  · have hstep : headerStep st l = .error (.unknownKey k) := by
      unfold headerStep
      dsimp only
      rw [if_neg hnb, hsplit]
      dsimp only
      rw [if_neg h1, if_neg h2, if_neg h3, if_neg h4, if_neg h5, if_neg h6,
        if_neg h7, if_neg h8]
    rw [readHeader.eq_def]
    dsimp only
    rw [hstep]
  · intro lines e h
    unfold parseHhr
    rw [h]

theorem unknown_header_key_witness :
    readHeader initState ["Banana 7".data] =
        .error (Err.unknownKey "Banana".data) ∧
      parseHhr ["Banana 7".data] =
        ([], some (Err.unknownKey "Banana".data)) := by
  have h := unknown_header_key initState "Banana 7".data [] "Banana".data
    "7".data (by decide) (by decide) (by decide)
  exact ⟨h.1, h.2 ["Banana 7".data] _ (by decide)⟩

theorem dictSet_append (m : List (List Char × Dec)) (k : List Char) (v : Dec)
    (hk : k ∉ m.map Prod.fst) : dictSet m k v = m ++ [(k, v)] := by
  induction m with
  | nil => rfl
  | cons p t ih =>
    obtain ⟨k', v'⟩ := p
    simp only [List.map_cons, List.mem_cons] at hk
    push_neg at hk
    unfold dictSet
    rw [if_neg (fun h => hk.1 h.symm), ih hk.2, List.cons_append]

theorem specKeys_cons_skip (w : List Char) (ws : List (List Char))
    (k v : List Char) (hkv : splitOnEq w = [k, v])
    (hAC : k = "Aligned_cols".data) :
    specKeys (w :: ws) = specKeys ws := by
  simp only [specKeys, List.filterMap_cons, wordKey, hkv]
  simp [hAC]

theorem specKeys_cons_keep (w : List Char) (ws : List (List Char))
    (k v : List Char) (hkv : splitOnEq w = [k, v])
    (hAC : k ≠ "Aligned_cols".data) :
    specKeys (w :: ws) = k :: specKeys ws := by
  simp only [specKeys, List.filterMap_cons, wordKey, hkv]
  simp [hAC]

theorem annotsSpec_cons_skip (w : List Char) (ws : List (List Char))
    (k v : List Char) (hkv : splitOnEq w = [k, v])
    (hAC : k = "Aligned_cols".data) :
    annotsSpec (w :: ws) = annotsSpec ws := by
  simp only [annotsSpec, List.filterMap_cons, hkv]
  simp [hAC]

theorem annotsSpec_cons_keep (w : List Char) (ws : List (List Char))
    (k v : List Char) (q : Dec) (hkv : splitOnEq w = [k, v])
    (hAC : k ≠ "Aligned_cols".data)
    (hq : pyFloat? (if k = "Identities".data then rstripPercent v else v) =
      some q) :
    annotsSpec (w :: ws) = (k, q) :: annotsSpec ws := by
  simp only [annotsSpec, List.filterMap_cons, hkv]
  simp [hAC, hq]

theorem parseAnnots_spec (ws : List (List Char)) :
    ∀ (acc : List (List Char × Dec)),
      (∀ w ∈ ws, goodWord w = true) → (specKeys ws).Nodup →
      (∀ x ∈ acc.map Prod.fst, x ∉ specKeys ws) →
      parseAnnots acc ws = .ok (acc ++ annotsSpec ws) := by
  induction ws with
  | nil =>
    intro acc _ _ _
    simp [parseAnnots, annotsSpec]
  | cons w ws ih =>
    intro acc hgood hnodup hdisj
    have hw := hgood w (List.mem_cons_self w ws)
    unfold goodWord at hw
    split at hw
    · rename_i k v hkv
      by_cases hAC : k = "Aligned_cols".data
      · have e1 : parseAnnots acc (w :: ws) = parseAnnots acc ws := by
          rw [parseAnnots.eq_def]
          dsimp only
          rw [hkv]
          dsimp only
          rw [if_pos hAC]
        rw [e1, annotsSpec_cons_skip w ws k v hkv hAC]
        refine ih acc (fun x hx => hgood x (List.mem_cons_of_mem _ hx)) ?_ ?_
        · rwa [specKeys_cons_skip w ws k v hkv hAC] at hnodup
        · intro x hx
          have := hdisj x hx
          rwa [specKeys_cons_skip w ws k v hkv hAC] at this
      · rw [if_neg hAC] at hw
        obtain ⟨q, hq⟩ := Option.isSome_iff_exists.mp hw
        have hsk := specKeys_cons_keep w ws k v hkv hAC
        have hkmem : k ∈ specKeys (w :: ws) := by rw [hsk]; exact List.mem_cons_self _ _
        have e1 : parseAnnots acc (w :: ws) = parseAnnots (dictSet acc k q) ws := by
          rw [parseAnnots.eq_def]
          dsimp only
          rw [hkv]
          dsimp only
          rw [if_neg hAC, hq]
        have hknotin : k ∉ acc.map Prod.fst := fun hmem => hdisj k hmem hkmem
        rw [e1, dictSet_append acc k q hknotin]
        rw [hsk] at hnodup
        have hknotws : k ∉ specKeys ws := (List.nodup_cons.mp hnodup).1
        have hdisj' : ∀ x ∈ (acc ++ [(k, q)]).map Prod.fst, x ∉ specKeys ws := by
          intro x hx
          simp only [List.map_append, List.mem_append, List.map_cons,
            List.map_nil, List.mem_singleton] at hx
          rcases hx with hx | hx
          · intro hmem
            exact hdisj x hx (hsk ▸ List.mem_cons_of_mem _ hmem)
          · subst hx
            exact hknotws
        rw [ih (acc ++ [(k, q)])
          (fun x hx => hgood x (List.mem_cons_of_mem _ hx))
          (List.nodup_cons.mp hnodup).2 hdisj']
        rw [annotsSpec_cons_keep w ws k v q hkv hAC hq]
        simp
    · exact absurd hw (by simp)

theorem annotsSpec_keys (ws : List (List Char))
    (hgood : ∀ w ∈ ws, goodWord w = true) :
    (annotsSpec ws).map Prod.fst = specKeys ws := by
  induction ws with
  | nil => rfl
  | cons w ws ih =>
    have hw := hgood w (List.mem_cons_self w ws)
    unfold goodWord at hw
    split at hw
    · rename_i k v hkv
      by_cases hAC : k = "Aligned_cols".data
      · rw [annotsSpec_cons_skip w ws k v hkv hAC,
          specKeys_cons_skip w ws k v hkv hAC]
        exact ih (fun x hx => hgood x (List.mem_cons_of_mem _ hx))
      · rw [if_neg hAC] at hw
        obtain ⟨q, hq⟩ := Option.isSome_iff_exists.mp hw
        rw [annotsSpec_cons_keep w ws k v q hkv hAC hq,
          specKeys_cons_keep w ws k v hkv hAC, List.map_cons,
          ih (fun x hx => hgood x (List.mem_cons_of_mem _ hx))]
    · exact absurd hw (by simp)

/-- **C7.**  The scalar annotation mapping built from the line following a
`>` header holds exactly the keys of that line's `key=value` tokens minus
`Aligned_cols`, each value parsed as a float with trailing percent signs
stripped off the `Identities` value first — the stored mapping equals the
spec-side `annotsSpec` and its key list equals the spec-side `specKeys`. -/
theorem hit_annotations_spec (st : PState) (l hdr n d : List Char)
    (hsl : pySplitMax1 (l.drop 1) = [n, d])
    (hgood : ∀ w ∈ pySplit hdr, goodWord w = true)
    (hnodup : (specKeys (pySplit hdr)).Nodup) :
    ∃ st', startHit st l hdr = .ok st' ∧
      st'.annotations = some (annotsSpec (pySplit hdr)) ∧
      (annotsSpec (pySplit hdr)).map Prod.fst = specKeys (pySplit hdr) := by
  have hpa := parseAnnots_spec (pySplit hdr) [] hgood hnodup (by simp)
  rw [List.nil_append] at hpa
  refine ⟨{ st with
            hmm_name := some n,
            hmm_description := some d,
            query_ss_pred := some [],
            query_consensus := some [],
            query_sequence := some [],
            query_start := none,
            target_ss_pred := some [],
            target_consensus := some [],
            target_ss_dssp := some [],
            target_sequence := some [],
            target_start := none,
            column_score := some [],
            confidence := some [],
            annotations := some (annotsSpec (pySplit hdr)) },
    ?_, rfl, annotsSpec_keys _ hgood⟩
  unfold startHit
  rw [hsl]
  dsimp only
  rw [hpa]

theorem hit_annotations_spec_witness :
    ∃ st', startHit hitState ">hitA some protein".data
        "Probab=99.90 E-value=1e-30 Aligned_cols=6 Identities=50% Similarity=1.0".data
        = .ok st' ∧
      st'.annotations = some (annotsSpec (pySplit
        "Probab=99.90 E-value=1e-30 Aligned_cols=6 Identities=50% Similarity=1.0".data)) ∧
      (annotsSpec (pySplit
        "Probab=99.90 E-value=1e-30 Aligned_cols=6 Identities=50% Similarity=1.0".data)).map
          Prod.fst =
        specKeys (pySplit
          "Probab=99.90 E-value=1e-30 Aligned_cols=6 Identities=50% Similarity=1.0".data) :=
  hit_annotations_spec hitState ">hitA some protein".data
    "Probab=99.90 E-value=1e-30 Aligned_cols=6 Identities=50% Similarity=1.0".data
    "hitA".data "some protein".data (by decide) (by decide) (by decide)

theorem qSeqBranch_eq (st : PState) (l k1 k2 s seqtok e tot qn qs : List Char)
    (sv ev ql : Int)
    (hsplit : pySplit l = [k1, k2, s, seqtok, e, tot])
    (hqn : st.query_name = some qn) (hpref : listStartsWith qn k2 = true)
    (hs : pyInt? s = some sv) (he : pyInt? e = some ev)
    (hp1 : listStartsWith tot "(".data = true)
    (hp2 : listEndsWith tot ")".data = true)
    (htot : pyInt? ((tot.drop 1).dropLast) = some ql)
    (hqs : st.query_sequence = some qs) :
    qSeqBranch st l = .ok { st with
      query_length := some ql,
      query_start :=
        if st.query_start = none then some (sv - 1) else st.query_start,
      query_sequence := some (qs ++ seqtok) } := by
  unfold qSeqBranch
  rw [hsplit, hqn]
  dsimp only
  rw [if_pos hpref, hs, he]
  dsimp only
  rw [if_pos (by rw [hp1, hp2]; rfl), htot]
  dsimp only
  rw [hqs]

theorem tSeqBranch_eq (st : PState) (l name s seqtok e tot ts : List Char)
    (sv ev tl : Int)
    (hsplit : pySplit l = ["T".data, name, s, seqtok, e, tot])
    (hs : pyInt? s = some sv) (he : pyInt? e = some ev)
    (hp1 : listStartsWith tot "(".data = true)
    (hp2 : listEndsWith tot ")".data = true)
    (htot : pyInt? ((tot.drop 1).dropLast) = some tl)
    (hts : st.target_sequence = some ts) :
    tSeqBranch st l = .ok { st with
      target_name := some name,
      target_length := some tl,
      target_start :=
        if st.target_start = none then some (sv - 1) else st.target_start,
      target_sequence := some (ts ++ seqtok) } := by
  unfold tSeqBranch
  rw [hsplit]
  dsimp only
  rw [if_pos rfl, hs, he]
  dsimp only
  rw [if_pos (by rw [hp1, hp2]; rfl), htot]
  dsimp only
  rw [hts]

/-- **C9.**  When two blocks of the same hit declare `(<total>)` values on
their `Q`-sequence lines and on their `T`-sequence lines, no consistency
error is raised even if they differ: each later line's total silently
overwrites the earlier one (`query_length` and `target_length` alike), and
the last-seen values are the declared query and target total lengths used
when the record is built. -/
theorem later_total_overwrites (st : PState)
    (lq1 kq1 nq1 sq1 gq1 eq1 tq1 : List Char)
    (lt1 nt1 stok1 gt1 etok1 tt1 : List Char)
    (lq2 kq2 nq2 sq2 gq2 eq2 tq2 : List Char)
    (lt2 nt2 stok2 gt2 etok2 tt2 : List Char)
    (qn qs ts : List Char)
    (qsv1 qev1 ql1 tsv1 tev1 tl1 qsv2 qev2 ql2 tsv2 tev2 tl2 : Int)
    (hqn : st.query_name = some qn)
    (hqs : st.query_sequence = some qs)
    (hts : st.target_sequence = some ts)
    (hsplitq1 : pySplit lq1 = [kq1, nq1, sq1, gq1, eq1, tq1])
    (hprefq1 : listStartsWith qn nq1 = true)
    (hqs1 : pyInt? sq1 = some qsv1) (hqe1 : pyInt? eq1 = some qev1)
    (hqp11 : listStartsWith tq1 "(".data = true)
    (hqp12 : listEndsWith tq1 ")".data = true)
    (hqt1 : pyInt? ((tq1.drop 1).dropLast) = some ql1)
    (hsplitt1 : pySplit lt1 = ["T".data, nt1, stok1, gt1, etok1, tt1])
    (hts1 : pyInt? stok1 = some tsv1) (hte1 : pyInt? etok1 = some tev1)
    (htp11 : listStartsWith tt1 "(".data = true)
    (htp12 : listEndsWith tt1 ")".data = true)
    (htt1 : pyInt? ((tt1.drop 1).dropLast) = some tl1)
    (hsplitq2 : pySplit lq2 = [kq2, nq2, sq2, gq2, eq2, tq2])
    (hprefq2 : listStartsWith qn nq2 = true)
    (hqs2 : pyInt? sq2 = some qsv2) (hqe2 : pyInt? eq2 = some qev2)
    (hqp21 : listStartsWith tq2 "(".data = true)
    (hqp22 : listEndsWith tq2 ")".data = true)
    (hqt2 : pyInt? ((tq2.drop 1).dropLast) = some ql2)
    (hsplitt2 : pySplit lt2 = ["T".data, nt2, stok2, gt2, etok2, tt2])
    (hts2 : pyInt? stok2 = some tsv2) (hte2 : pyInt? etok2 = some tev2)
    (htp21 : listStartsWith tt2 "(".data = true)
    (htp22 : listEndsWith tt2 ")".data = true)
    (htt2 : pyInt? ((tt2.drop 1).dropLast) = some tl2) :
    ∃ s1 s2 s3 s4,
      qSeqBranch st lq1 = .ok s1 ∧ tSeqBranch s1 lt1 = .ok s2 ∧
      qSeqBranch s2 lq2 = .ok s3 ∧ tSeqBranch s3 lt2 = .ok s4 ∧
      s1.query_length = some ql1 ∧ s2.target_length = some tl1 ∧
      s3.query_length = some ql2 ∧ s4.target_length = some tl2 ∧
      s4.query_length = some ql2 ∧
      (∀ a, createAlignment s4 = .ok a → a.q_len = ql2 ∧ a.t_len = tl2) := by
  have h1 := qSeqBranch_eq st lq1 kq1 nq1 sq1 gq1 eq1 tq1 qn qs qsv1 qev1 ql1
    hsplitq1 hqn hprefq1 hqs1 hqe1 hqp11 hqp12 hqt1 hqs
  have h2 := tSeqBranch_eq { st with
      query_length := some ql1,
      query_start :=
        if st.query_start = none then some (qsv1 - 1) else st.query_start,
      query_sequence := some (qs ++ gq1) }
    lt1 nt1 stok1 gt1 etok1 tt1 ts tsv1 tev1 tl1
    hsplitt1 hts1 hte1 htp11 htp12 htt1 hts
  have h3 := qSeqBranch_eq { { st with
      query_length := some ql1,
      query_start :=
        if st.query_start = none then some (qsv1 - 1) else st.query_start,
      query_sequence := some (qs ++ gq1) } with
      target_name := some nt1,
      target_length := some tl1,
      target_start :=
        if st.target_start = none then some (tsv1 - 1) else st.target_start,
      target_sequence := some (ts ++ gt1) }
    lq2 kq2 nq2 sq2 gq2 eq2 tq2 qn (qs ++ gq1) qsv2 qev2 ql2
    hsplitq2 hqn hprefq2 hqs2 hqe2 hqp21 hqp22 hqt2 rfl
  have h4 := tSeqBranch_eq { { { st with
      query_length := some ql1,
      query_start :=
        if st.query_start = none then some (qsv1 - 1) else st.query_start,
      query_sequence := some (qs ++ gq1) } with
      target_name := some nt1,
      target_length := some tl1,
      target_start :=
        if st.target_start = none then some (tsv1 - 1) else st.target_start,
      target_sequence := some (ts ++ gt1) } with
      query_length := some ql2,
      query_start :=
        if (if st.query_start = none then some (qsv1 - 1)
            else st.query_start) = none then some (qsv2 - 1)
        else if st.query_start = none then some (qsv1 - 1)
        else st.query_start,
      query_sequence := some ((qs ++ gq1) ++ gq2) }
    lt2 nt2 stok2 gt2 etok2 tt2 (ts ++ gt1) tsv2 tev2 tl2
    hsplitt2 hts2 hte2 htp21 htp22 htt2 rfl
  refine ⟨_, _, _, _, h1, h2, h3, h4, rfl, rfl, rfl, rfl, rfl, ?_⟩
  intro a ha
  have hq := createAlignment_q_len _ a ha
  have ht := createAlignment_t_len _ a ha
  have hq2 : some ql2 = some a.q_len := hq
  have ht2b : some tl2 = some a.t_len := ht
  exact ⟨(Option.some.inj hq2).symm, (Option.some.inj ht2b).symm⟩

theorem later_total_overwrites_witness :
    ∃ s1 s2 s3 s4,
      qSeqBranch hitState "Q test 1 ABC 3 (6)".data = .ok s1 ∧
      tSeqBranch s1 "T hitA 2 XYZ 4 (8)".data = .ok s2 ∧
      qSeqBranch s2 "Q test 4 DEF 6 (9)".data = .ok s3 ∧
      tSeqBranch s3 "T hitA 5 UVW 7 (11)".data = .ok s4 ∧
      s1.query_length = some 6 ∧ s2.target_length = some 8 ∧
      s3.query_length = some 9 ∧ s4.target_length = some 11 ∧
      s4.query_length = some 9 ∧
      (∀ a, createAlignment s4 = .ok a → a.q_len = 9 ∧ a.t_len = 11) :=
  later_total_overwrites hitState
    "Q test 1 ABC 3 (6)".data "Q".data "test".data "1".data "ABC".data
    "3".data "(6)".data
    "T hitA 2 XYZ 4 (8)".data "hitA".data "2".data "XYZ".data "4".data
    "(8)".data
    "Q test 4 DEF 6 (9)".data "Q".data "test".data "4".data "DEF".data
    "6".data "(9)".data
    "T hitA 5 UVW 7 (11)".data "hitA".data "5".data "UVW".data "7".data
    "(11)".data
    "test".data [] [] 1 3 6 2 4 8 4 6 9 5 7 11
    (by decide) (by decide) (by decide) (by decide) (by decide) (by decide)
    (by decide) (by decide) (by decide) (by decide) (by decide) (by decide)
    (by decide) (by decide) (by decide) (by decide) (by decide) (by decide)
    (by decide) (by decide) (by decide) (by decide) (by decide) (by decide)
    (by decide) (by decide) (by decide) (by decide) (by decide)

/-- **C3** (amended).  Dispatching a `Q <name> <start> <seq> <end>
(<total>)` line verifies that `<name>` is a *prefix of* the query identifier
captured from the header (not the other way around), failing with the
name-mismatch error exactly when that prefix test fails; in particular a
`<name>` that strictly extends the query identifier is rejected. -/
theorem query_name_check (st : PState) (l k1 k2 s seqtok e tot qn : List Char)
    (hsplit : pySplit l = [k1, k2, s, seqtok, e, tot])
    (hqn : st.query_name = some qn) :
    (listStartsWith qn k2 = false →
      qSeqBranch st l = .error .queryNameMismatch) ∧
    (∀ e', qSeqBranch st l = .error e' → e' = .queryNameMismatch →
      listStartsWith qn k2 = false) := by
  constructor
  · intro hf
    unfold qSeqBranch
    rw [hsplit, hqn]
    dsimp only
    rw [if_neg (by rw [hf]; exact Bool.false_ne_true)]
  · intro e' he' heq
    cases hb : listStartsWith qn k2 with
    | false => rfl
    | true =>
      exfalso
      unfold qSeqBranch at he'
      rw [hsplit, hqn] at he'
      dsimp only at he'
      rw [if_pos hb] at he'
      subst heq
      repeat' split at he'
      all_goals
        first
          | exact Except.noConfusion he'
          | exact Err.noConfusion (Except.error.inj he')

theorem query_name_check_witness :
    qSeqBranch seqState "Q seqX 1 AAA 3 (10)".data =
      .error Err.queryNameMismatch :=
  (query_name_check seqState
      "Q seqX 1 AAA 3 (10)".data "Q".data "seqX".data "1".data "AAA".data
      "3".data "(10)".data "seq".data (by decide) (by decide)).1 (by decide)

theorem bool_not_true (a : Bool) (h : a = false) : ¬(a = true) := by
  rw [h]
  exact Bool.false_ne_true

theorem handleSimple_qRoute (st : PState) (l : List Char)
    (h1 : listStartsWith l " ".data = false)
    (h2 : listStartsWith l "No ".data = false)
    (h3 : listStartsWith l "Confidence".data = false)
    (h4 : listStartsWith l "Q ss_pred ".data = false)
    (h5 : listStartsWith l "Q Consensus ".data = false)
    (h6 : listStartsWith l "Q ".data = true) :
    handleSimple st l = ([], qSeqBranch st l) := by
  unfold handleSimple
  rw [if_neg (bool_not_true _ h1), if_neg (bool_not_true _ h2),
    if_neg (bool_not_true _ h3), if_neg (bool_not_true _ h4),
    if_neg (bool_not_true _ h5), if_pos h6]

theorem handleSimple_tRoute (st : PState) (l : List Char)
    (h1 : listStartsWith l " ".data = false)
    (h2 : listStartsWith l "No ".data = false)
    (h3 : listStartsWith l "Confidence".data = false)
    (h4 : listStartsWith l "Q ss_pred ".data = false)
    (h5 : listStartsWith l "Q Consensus ".data = false)
    (h6 : listStartsWith l "Q ".data = false)
    (h7 : listStartsWith l "T ss_pred ".data = false)
    (h8 : listStartsWith l "T ss_dssp ".data = false)
    (h9 : listStartsWith l "T Consensus ".data = false)
    (h10 : listStartsWith l "T ".data = true) :
    handleSimple st l = ([], tSeqBranch st l) := by
  unfold handleSimple
  rw [if_neg (bool_not_true _ h1), if_neg (bool_not_true _ h2),
    if_neg (bool_not_true _ h3), if_neg (bool_not_true _ h4),
    if_neg (bool_not_true _ h5), if_neg (bool_not_true _ h6),
    if_neg (bool_not_true _ h7), if_neg (bool_not_true _ h8),
    if_neg (bool_not_true _ h9), if_pos h10]

theorem parseLines_step (st st' : PState) (l : List Char)
    (rest : List (List Char)) (hfix : pyRstrip l = l) (hne : l ≠ [])
    (hgt : listStartsWith l ">".data = false) (hdone : l ≠ "Done!".data)
    (hh : handleSimple st l = ([], .ok st')) :
    parseLines st (l :: rest) = parseLines st' rest := by
  rw [parseLines.eq_def]
  dsimp only
  rw [hfix, if_neg hne, if_neg (bool_not_true _ hgt), if_neg hdone, hh]
  dsimp only
  simp

theorem createAlignment_starts (st : PState) (a : AlignRecord)
    (h : createAlignment st = .ok a) :
    st.query_start = some a.q_start ∧ st.target_start = some a.t_start := by
  unfold createAlignment at h
  repeat' split at h
  all_goals try exact Except.noConfusion h
  obtain rfl := Except.ok.inj h
  exact ⟨by assumption, by assumption⟩

theorem createAlignment_seqs (st : PState) (a : AlignRecord)
    (h : createAlignment st = .ok a) :
    (∃ qs, st.query_sequence = some qs ∧ a.q_res = removeChar '-' qs) ∧
      (∃ ts, st.target_sequence = some ts ∧ a.t_res = removeChar '-' ts) := by
  unfold createAlignment at h
  repeat' split at h
  all_goals try exact Except.noConfusion h
  obtain rfl := Except.ok.inj h
  exact ⟨⟨_, by assumption, rfl⟩, ⟨_, by assumption, rfl⟩⟩

theorem block_step (st : PState) (b : QTBlock) (qn qs ts : List Char)
    (tail : List (List Char)) (hwf : WfQT b)
    (hqn : st.query_name = some qn)
    (hpref : listStartsWith qn b.qName = true)
    (hqs : st.query_sequence = some qs)
    (hts : st.target_sequence = some ts) :
    parseLines st (b.qLine :: b.tLine :: tail) =
      parseLines { st with
        query_length := some b.qTotVal,
        query_start :=
          if st.query_start = none then some (b.qStartVal - 1)
          else st.query_start,
        query_sequence := some (qs ++ b.qSeg),
        target_name := some b.tName,
        target_length := some b.tTotVal,
        target_start :=
          if st.target_start = none then some (b.tStartVal - 1)
          else st.target_start,
        target_sequence := some (ts ++ b.tSeg) } tail := by
  obtain ⟨hqfix, hqne, hqgt, hqdone, hq1, hq2, hq3, hq4, hq5, hq6, hqsplit,
    hqsv, hqev, hqp1, hqp2, hqtv, htfix, htne, htgt, htdone, ht1, ht2, ht3,
    ht4, ht5, ht6, ht7, ht8, ht9, ht10, htsplit, htsv, htev, htp1, htp2,
    httv⟩ := hwf
  have hhq : handleSimple st b.qLine =
      ([], .ok { st with
        query_length := some b.qTotVal,
        query_start :=
          if st.query_start = none then some (b.qStartVal - 1)
          else st.query_start,
        query_sequence := some (qs ++ b.qSeg) }) := by
    rw [handleSimple_qRoute st b.qLine hq1 hq2 hq3 hq4 hq5 hq6,
      qSeqBranch_eq st b.qLine "Q".data b.qName b.qStartTok b.qSeg b.qEndTok
        b.qTotTok qn qs b.qStartVal b.qEndVal b.qTotVal hqsplit hqn hpref
        hqsv hqev hqp1 hqp2 hqtv hqs]
  have hstep1 := parseLines_step st _ b.qLine (b.tLine :: tail) hqfix hqne
    hqgt hqdone hhq
  have hht : handleSimple { st with
        query_length := some b.qTotVal,
        query_start :=
          if st.query_start = none then some (b.qStartVal - 1)
          else st.query_start,
        query_sequence := some (qs ++ b.qSeg) } b.tLine =
      ([], .ok { st with
        query_length := some b.qTotVal,
        query_start :=
          if st.query_start = none then some (b.qStartVal - 1)
          else st.query_start,
        query_sequence := some (qs ++ b.qSeg),
        target_name := some b.tName,
        target_length := some b.tTotVal,
        target_start :=
          if st.target_start = none then some (b.tStartVal - 1)
          else st.target_start,
        target_sequence := some (ts ++ b.tSeg) }) := by
    rw [handleSimple_tRoute _ b.tLine ht1 ht2 ht3 ht4 ht5 ht6 ht7 ht8 ht9
        ht10,
      tSeqBranch_eq { st with
          query_length := some b.qTotVal,
          query_start :=
            if st.query_start = none then some (b.qStartVal - 1)
            else st.query_start,
          query_sequence := some (qs ++ b.qSeg) }
        b.tLine b.tName b.tStartTok b.tSeg b.tEndTok b.tTotTok
        ts b.tStartVal b.tEndVal b.tTotVal htsplit htsv htev htp1 htp2 httv
        hts]
  have hstep2 := parseLines_step _ _ b.tLine tail htfix htne htgt htdone hht
  rw [hstep1, hstep2]

theorem multi_block_accumulation (bs : List QTBlock) :
    ∀ (st : PState) (qn qs ts : List Char),
      (∀ b ∈ bs, WfQT b) → st.query_name = some qn →
      (∀ b ∈ bs, listStartsWith qn b.qName = true) →
      st.query_sequence = some qs → st.target_sequence = some ts →
      ∃ st',
        (∀ tail, parseLines st (blockLines bs ++ tail) = parseLines st' tail) ∧
        st'.query_sequence = some (qs ++ (bs.map QTBlock.qSeg).flatten) ∧
        st'.target_sequence = some (ts ++ (bs.map QTBlock.tSeg).flatten) ∧
        st'.query_start =
          startAfter st.query_start (bs.map QTBlock.qStartVal) ∧
        st'.target_start =
          startAfter st.target_start (bs.map QTBlock.tStartVal) ∧
        st'.number = st.number ∧ st'.counter = st.counter ∧
        st'.query_name = st.query_name := by
  induction bs with
  | nil =>
    intro st qn qs ts _ _ _ hqs hts
    refine ⟨st, fun tail => by simp [blockLines], ?_, ?_, ?_, ?_, rfl, rfl, rfl⟩
    · simpa using hqs
    · simpa using hts
    · cases st.query_start <;> rfl
    · cases st.target_start <;> rfl
  | cons b bs ih =>
    intro st qn qs ts hwf hqn hpref hqs hts
    have hlines : blockLines (b :: bs) =
        b.qLine :: b.tLine :: blockLines bs := by
      simp [blockLines]
    obtain ⟨st', hrel, hq, ht, hqst, htst, hnum, hcnt, hname⟩ :=
      ih { st with
            query_length := some b.qTotVal,
            query_start :=
              if st.query_start = none then some (b.qStartVal - 1)
              else st.query_start,
            query_sequence := some (qs ++ b.qSeg),
            target_name := some b.tName,
            target_length := some b.tTotVal,
            target_start :=
              if st.target_start = none then some (b.tStartVal - 1)
              else st.target_start,
            target_sequence := some (ts ++ b.tSeg) }
        qn (qs ++ b.qSeg) (ts ++ b.tSeg)
        (fun x hx => hwf x (List.mem_cons_of_mem _ hx)) hqn
        (fun x hx => hpref x (List.mem_cons_of_mem _ hx)) rfl rfl
    refine ⟨st', ?_, ?_, ?_, ?_, ?_, hnum, hcnt, hname⟩
    · intro tail
      rw [hlines, List.cons_append, List.cons_append]
      rw [block_step st b qn qs ts (blockLines bs ++ tail)
        (hwf b (List.mem_cons_self b bs)) hqn
        (hpref b (List.mem_cons_self b bs)) hqs hts]
      exact hrel tail
    · rw [hq]
      simp
    · rw [ht]
      simp
    · rw [hqst]
      cases hcase : st.query_start <;> simp [startAfter, hcase]
    · rw [htst]
      cases hcase : st.target_start <;> simp [startAfter, hcase]

/-- **C2.**  A hit whose alignment is wrapped over several blocks under one
`>` header accumulates gapped sequence tracks equal to the concatenation of
the per-block `<seq>` segments in block order; the stored query and target
start offsets are `<start> - 1` from the *first* block's `Q`/`T` lines and
are untouched by the later blocks' `<start>` values; the record built from
the accumulated state carries exactly those start offsets and the
gap-stripped concatenated tracks, and when the hit counter already matches
the expected count, finishing the stream yields exactly that one record. -/
theorem multi_block_hit (bs : List QTBlock) (b0 : QTBlock)
    (rest : List QTBlock) (st : PState) (qn qs0 ts0 : List Char)
    (hbs : bs = b0 :: rest) (hwf : ∀ b ∈ bs, WfQT b)
    (hqn : st.query_name = some qn)
    (hpref : ∀ b ∈ bs, listStartsWith qn b.qName = true)
    (hqs : st.query_sequence = some qs0)
    (hts : st.target_sequence = some ts0)
    (hq0 : st.query_start = none) (ht0 : st.target_start = none) :
    ∃ st',
      (∀ tail, parseLines st (blockLines bs ++ tail) = parseLines st' tail) ∧
      st'.query_sequence = some (qs0 ++ (bs.map QTBlock.qSeg).flatten) ∧
      st'.target_sequence = some (ts0 ++ (bs.map QTBlock.tSeg).flatten) ∧
      st'.query_start = some (b0.qStartVal - 1) ∧
      st'.target_start = some (b0.tStartVal - 1) ∧
      (∀ a, createAlignment st' = .ok a →
        a.q_start = b0.qStartVal - 1 ∧ a.t_start = b0.tStartVal - 1 ∧
        a.q_res = removeChar '-' (qs0 ++ (bs.map QTBlock.qSeg).flatten) ∧
        a.t_res = removeChar '-' (ts0 ++ (bs.map QTBlock.tSeg).flatten)) ∧
      (st.number = st.counter → ∀ a, createAlignment st' = .ok a →
        parseLines st (blockLines bs) = ([a], none)) := by
  subst hbs
  obtain ⟨st', hrel, hq, ht, hqst, htst, hnum, hcnt, -⟩ :=
    multi_block_accumulation (b0 :: rest) st qn qs0 ts0 hwf hqn hpref hqs hts
  rw [hq0] at hqst
  rw [ht0] at htst
  simp only [List.map_cons, startAfter] at hqst htst
  refine ⟨st', hrel, hq, ht, hqst, htst, ?_, ?_⟩
  · intro a ha
    obtain ⟨hs1, hs2⟩ := createAlignment_starts st' a ha
    obtain ⟨⟨qs', hq1, hq2⟩, ⟨ts', ht1, ht2⟩⟩ := createAlignment_seqs st' a ha
    rw [hqst] at hs1
    rw [htst] at hs2
    rw [hq] at hq1
    rw [ht] at ht1
    refine ⟨(Option.some.inj hs1).symm, (Option.some.inj hs2).symm, ?_, ?_⟩
    · rw [hq2, Option.some.inj hq1]
    · rw [ht2, Option.some.inj ht1]
  · intro hcount a ha
    have hfin := hrel []
    rw [List.append_nil] at hfin
    rw [hfin, parseLines]
    unfold atEnd
    rw [ha]
    dsimp only
    rw [if_pos (by rw [hnum, hcnt]; exact hcount)]

theorem multi_block_hit_witness :
    ∃ st',
      (∀ tail,
        parseLines hitState (blockLines [blockA, blockB] ++ tail) =
          parseLines st' tail) ∧
      st'.query_sequence =
        some ([] ++ ([blockA, blockB].map QTBlock.qSeg).flatten) ∧
      st'.target_sequence =
        some ([] ++ ([blockA, blockB].map QTBlock.tSeg).flatten) ∧
      st'.query_start = some (blockA.qStartVal - 1) ∧
      st'.target_start = some (blockA.tStartVal - 1) ∧
      (∀ a, createAlignment st' = .ok a →
        a.q_start = blockA.qStartVal - 1 ∧
        a.t_start = blockA.tStartVal - 1 ∧
        a.q_res =
          removeChar '-' ([] ++ ([blockA, blockB].map QTBlock.qSeg).flatten) ∧
        a.t_res =
          removeChar '-' ([] ++ ([blockA, blockB].map QTBlock.tSeg).flatten)) ∧
      (hitState.number = hitState.counter →
        ∀ a, createAlignment st' = .ok a →
          parseLines hitState (blockLines [blockA, blockB]) = ([a], none)) :=
  multi_block_hit [blockA, blockB] blockA [blockB] hitState "test".data [] []
    rfl (by decide) (by decide) (by decide) (by decide) (by decide)
    (by decide) (by decide)

/-- **C3 counterexample.**  The claim says a `Q` line whose `<name>`
extends the query identifier is accepted; the code rejects it: with query
identifier `seq`, the line `Q seqX ...` (whose `<name>` `seqX` strictly
extends `seq`) fails with the name-mismatch error. -/
theorem query_name_check_cx :
    listStartsWith "seqX".data "seq".data = true ∧
      "seqX".data ≠ "seq".data ∧
      (handleSimple seqState "Q seqX 1 AAA 3 (10)".data).2 =
        .error Err.queryNameMismatch := by
  decide

end Hhr
